import Mathlib

/-!
# gold-fix: formal model of the FIX 4.2 engine core

A shallow embedding of the gold-fix Rust sources (codec, validator, store,
session state machine).  Rust `&str`/`String` values are modeled as byte
lists (`List Nat`): Rust strings are UTF-8 byte sequences and every
operation the code performs (splitting on the ASCII bytes SOH/`=`/`|`,
byte-offset `find`, byte-length, `replace`, byte checksums) is a byte-level
operation.  `HashMap<i32, Field>` is modeled as an association list kept
sorted by tag (the canonical representation of the map; the code never
depends on hash-iteration order: `to_string` sorts the fields and the
validator's accept/reject result is iteration-order independent).
Clock reads (`chrono::Utc::now`, `SystemTime::now`) are passed in as
explicit parameters.  Fallible operations return `Except Unit`; the
human-readable error strings carried by `FixError` are not modeled.
-/

set_option maxRecDepth 100000

/-- Byte strings: the model of Rust `String` / `&str` / `Vec<u8>` contents. -/
abbrev ByteStr := List Nat

/-- Bytes of an ASCII string literal (all literals in the sources are ASCII). -/
def ascii (s : String) : ByteStr := s.data.map Char.toNat

/-- The SOH delimiter byte 0x01. -/
def SOH : Nat := 1

/-- Decimal digit bytes, fuel-based recursion (`fuel ≥ n` suffices, so the
wrapper below always stays inside the fuel). -/
def natToBytesCore : Nat → Nat → ByteStr
  | _, 0 => [48]
  | 0, n => [48 + n % 10]
  | fuel + 1, n =>
    if n < 10 then [48 + n]
    else natToBytesCore fuel (n / 10) ++ [48 + n % 10]

/-- Decimal digit bytes of a natural number (Rust `format!("{}", n)`). -/
def natToBytes (n : Nat) : ByteStr := natToBytesCore n n

/-- Decimal rendering of a signed integer (Rust `format!("{}", i)` on `i32`). -/
def intToBytes (i : Int) : ByteStr :=
  if i < 0 then 45 :: natToBytes i.natAbs else natToBytes i.toNat

/-- Zero-padded decimal of width `w` (Rust `format!("{:0w}", n)` for `n ≥ 0`). -/
def padZeros (w : Nat) (n : Nat) : ByteStr :=
  let d := natToBytes n
  List.replicate (w - d.length) 48 ++ d

/-- `calculate_checksum` (message/mod.rs): sum of all bytes mod 256.
The Rust sum is over `u32` and may wrap at `2^32`; since `256 ∣ 2^32`
the result mod 256 is unaffected, so a `Nat` sum is faithful. -/
def calculate_checksum (msg : ByteStr) : Nat := msg.sum % 256

/-- Rust `str::split(sep)`: split on a separator byte, keeping empty pieces. -/
def splitByte (sep : Nat) : ByteStr → List ByteStr
  | [] => [[]]
  | b :: rest =>
    if b = sep then [] :: splitByte sep rest
    else
      match splitByte sep rest with
      | [] => [[b]]
      | p :: ps => (b :: p) :: ps

/-- Rust `str::find(pat)`: byte index of the first occurrence of `pat`. -/
def findSub (pat : ByteStr) : ByteStr → Option Nat
  | [] => if pat = [] then some 0 else none
  | b :: rest =>
    if pat.isPrefixOf (b :: rest) then some 0
    else (findSub pat rest).map (· + 1)

/-- Fuel-based core of `str::replace` (each step consumes at least one byte
of `s`, so `fuel ≥ s.length` suffices). -/
def replaceAllCore (pat rep : ByteStr) : Nat → ByteStr → ByteStr
  | _, [] => []
  | 0, s => s
  | fuel + 1, b :: rest =>
    if pat.isPrefixOf (b :: rest) ∧ pat ≠ [] then
      rep ++ replaceAllCore pat rep fuel ((b :: rest).drop pat.length)
    else
      b :: replaceAllCore pat rep fuel rest

/-- Rust `str::replace(pat, rep)`: replace every (left-to-right,
non-overlapping) occurrence of `pat`.  The sources only call it with the
non-empty pattern `9=0000<SOH>`; the `pat ≠ []` guard keeps the model total. -/
def replaceAll (pat rep : ByteStr) (s : ByteStr) : ByteStr :=
  replaceAllCore pat rep s.length s

/-- All-digit check and decimal value (core of Rust integer `FromStr`). -/
def parseDigits (s : ByteStr) : Option Nat :=
  if s ≠ [] ∧ s.all (fun b => 48 ≤ b ∧ b ≤ 57) then
    some (s.foldl (fun acc b => acc * 10 + (b - 48)) 0)
  else none

/-- Rust `str::parse::<i32>()`: optional sign, one or more digits,
value within `i32` range. -/
def parseI32 (s : ByteStr) : Option Int :=
  match s with
  | 43 :: rest =>
    (parseDigits rest).bind fun n =>
      if n ≤ 2147483647 then some (n : Int) else none
  | 45 :: rest =>
    (parseDigits rest).bind fun n =>
      if n ≤ 2147483648 then some (-(n : Int)) else none
  | _ =>
    (parseDigits s).bind fun n =>
      if n ≤ 2147483647 then some (n : Int) else none

/-- Rust `str::parse::<u64>()`: optional `+`, digits, value below `2^64`. -/
def parseU64 (s : ByteStr) : Option Nat :=
  match s with
  | 43 :: rest =>
    (parseDigits rest).bind fun n =>
      if n ≤ 18446744073709551615 then some n else none
  | _ =>
    (parseDigits s).bind fun n =>
      if n ≤ 18446744073709551615 then some n else none

/-- Rust `str::parse::<usize>()` on the 64-bit target. -/
def parseUsize (s : ByteStr) : Option Nat := parseU64 s

deriving instance DecidableEq for Except

/-! ## Message (message/mod.rs) -/

/-- `Message`: the tag→value map plus the message type.  The `HashMap` is
represented as an association list sorted strictly by tag.  Repeating
groups and per-tag formatters are not populated on any code path the
claims touch (no caller of `set_formatter`/`add_group` outside tests),
so they are omitted. -/
structure Msg where
  msgType : ByteStr
  fields : List (Int × ByteStr)
deriving DecidableEq, Repr

/-- `HashMap::insert`, on the canonical (tag-sorted) association list. -/
def insertSorted {α : Type} (l : List (Int × α)) (k : Int) (v : α) :
    List (Int × α) :=
  match l with
  | [] => [(k, v)]
  | (a, b) :: rest =>
    if k < a then (k, v) :: (a, b) :: rest
    else if k = a then (k, v) :: rest
    else (a, b) :: insertSorted rest k v

/-- `HashMap::get` on the association list. -/
def lookupSorted {α : Type} (l : List (Int × α)) (k : Int) : Option α :=
  match l with
  | [] => none
  | (a, b) :: rest => if a = k then some b else lookupSorted rest k

/-- `Message::set_field` (no formatter registered, hence infallible). -/
def Msg.setField (m : Msg) (t : Int) (v : ByteStr) : Msg :=
  { m with fields := insertSorted m.fields t v }

/-- `Message::get_field` (value of the field, `Field::value`). -/
def Msg.getField (m : Msg) (t : Int) : Option ByteStr :=
  lookupSorted m.fields t

/-- `Message::new` + `set_default_headers`.  `ts` is the
`chrono::Utc::now().format("%Y%m%d-%H:%M:%S")` timestamp taken at
construction time, passed explicitly. -/
def Message.new (msgType ts : ByteStr) : Msg :=
  let m : Msg := { msgType := msgType, fields := [] }
  let m := m.setField 8 (ascii "FIX.4.2")
  let m := m.setField 35 msgType
  let m := m.setField 52 ts
  let m := m.setField 49 (ascii "SENDER")
  let m := m.setField 56 (ascii "TARGET")
  let m := m.setField 34 (ascii "1")
  m

/-- `Message::to_string` (message/mod.rs lines 97-137).  Emits
`8=...`, the `9=0000` placeholder, `35=...`, then all fields except
tags 8, 9, 10 in ascending tag order (tag 35 is *not* excluded and is
emitted a second time), then patches the body length and appends the
checksum exactly as the source does. -/
def Message.toString (m : Msg) : Except Unit ByteStr :=
  match m.getField 8 with
  | none => .error ()
  | some beginStr =>
    let s := ascii "8=" ++ beginStr ++ [SOH]
    let s := s ++ ascii "9=0000" ++ [SOH]
    let s := s ++ ascii "35=" ++ m.msgType ++ [SOH]
    let sorted := List.insertionSort (fun p q => p.1 ≤ q.1) m.fields
    let s := (sorted.filter fun p => p.1 ≠ 8 ∧ p.1 ≠ 9 ∧ p.1 ≠ 10).foldl
      (fun acc p => acc ++ intToBytes p.1 ++ [61] ++ p.2 ++ [SOH]) s
    let bodyStart := (findSub (ascii "9=") s).getD 0
    let bodyLength := (s.drop bodyStart).length
    let s := replaceAll (ascii "9=0000" ++ [SOH])
      (ascii "9=" ++ padZeros 4 bodyLength ++ [SOH]) s
    let ck := calculate_checksum s
    .ok (s ++ ascii "10=" ++ padZeros 3 ck ++ [SOH])

/-! ## Parser (message/parser.rs) -/

/-- First pass of `MessageParser::parse`: scan all pieces, reject any
non-empty piece that does not split at `=` into exactly two parts, and
record the last values seen for tags 8 and 35. -/
def firstPass :
    List ByteStr → Option ByteStr → Option ByteStr →
    Except Unit (Option ByteStr × Option ByteStr)
  | [], bs, mt => .ok (bs, mt)
  | piece :: rest, bs, mt =>
    if piece = [] then firstPass rest bs mt
    else
      match splitByte 61 piece with
      | [a, b] =>
        match parseI32 a with
        | some 8 => firstPass rest (some b) mt
        | some 35 => firstPass rest bs (some b)
        | _ => firstPass rest bs mt
      | _ => .error ()

/-- Second pass of `MessageParser::parse`: set every field on the message
(rejecting unparseable tags), tracking the declared `NoMDEntries(268)`
count and the number of `MDEntryType(269)` occurrences. -/
def secondPass :
    List ByteStr → Msg → Option Int → Int →
    Except Unit (Msg × Option Int × Int)
  | [], m, exp, cnt => .ok (m, exp, cnt)
  | piece :: rest, m, exp, cnt =>
    if piece = [] then secondPass rest m exp cnt
    else
      match splitByte 61 piece with
      | [a, b] =>
        match parseI32 a with
        | some tag =>
          secondPass rest (m.setField tag b)
            (if tag = 268 then parseI32 b else exp)
            (if tag = 269 then cnt + 1 else cnt)
        | none => .error ()
      | _ => secondPass rest m exp cnt

/-- `MessageParser::parse` (parser.rs lines 9-94).  `ts` is the clock
timestamp that `Message::new` stamps into the default `SendingTime(52)`
header before the frame's own fields overwrite the defaults. -/
def MessageParser.parse (ts data : ByteStr) : Except Unit Msg :=
  let pieces := splitByte SOH data
  match firstPass pieces none none with
  | .error e => .error e
  | .ok (some _, some mt) =>
    match secondPass pieces (Message.new mt ts) none 0 with
    | .error e => .error e
    | .ok (m, exp, cnt) =>
      match exp with
      | some expected => if cnt ≠ expected then .error () else .ok m
      | none => .ok m
  | .ok _ => .error ()

/-! ## Validator (message/validator.rs)

The validator is modeled as a `Bool` (`true` ↔ `Ok(())`); the
human-readable `ParseError` descriptions are not modeled.  Rust's
early-return chains become short-circuit conjunctions, which preserves
the accept/reject result exactly. -/

/-- A decimal digit byte. -/
def isDigitByte (b : Nat) : Bool := 48 ≤ b && b ≤ 57

/-- `is_valid_timestamp`: the regex `^\d{8}-\d{2}:\d{2}:\d{2}(\.\d{3})?$`. -/
def is_valid_timestamp (s : ByteStr) : Bool :=
  match s with
  | [a, b, c, d, e, f, g, h, 45, i, j, 58, k, l, 58, m, n] =>
    [a, b, c, d, e, f, g, h, i, j, k, l, m, n].all isDigitByte
  | [a, b, c, d, e, f, g, h, 45, i, j, 58, k, l, 58, m, n, 46, p, q, r] =>
    [a, b, c, d, e, f, g, h, i, j, k, l, m, n, p, q, r].all isDigitByte
  | _ => false

/-- `is_valid_side`: Side ∈ {1,2,3,4,5,6}. -/
def is_valid_side (s : ByteStr) : Bool :=
  s = ascii "1" || s = ascii "2" || s = ascii "3" || s = ascii "4" ||
  s = ascii "5" || s = ascii "6"

/-- `is_valid_order_type`: OrdType ∈ {1..8}. -/
def is_valid_order_type (s : ByteStr) : Bool :=
  s = ascii "1" || s = ascii "2" || s = ascii "3" || s = ascii "4" ||
  s = ascii "5" || s = ascii "6" || s = ascii "7" || s = ascii "8"

/-- `is_valid_time_in_force`: TimeInForce ∈ {0,1,2,3,4,6}. -/
def is_valid_time_in_force (s : ByteStr) : Bool :=
  s = ascii "0" || s = ascii "1" || s = ascii "2" || s = ascii "3" ||
  s = ascii "4" || s = ascii "6"

/-- `is_valid_md_entry_type`: MDEntryType ∈ {0,1,2,3,4,5,7,8}. -/
def is_valid_md_entry_type (s : ByteStr) : Bool :=
  s = ascii "0" || s = ascii "1" || s = ascii "2" || s = ascii "3" ||
  s = ascii "4" || s = ascii "5" || s = ascii "7" || s = ascii "8"

/-- `is_valid_quote_condition`: QuoteCondition ∈ {A,B,C,D,E,F}. -/
def is_valid_quote_condition (s : ByteStr) : Bool :=
  s = ascii "A" || s = ascii "B" || s = ascii "C" || s = ascii "D" ||
  s = ascii "E" || s = ascii "F"

/-- Whether `str::parse::<f64>()` succeeds: Rust's float grammar is
`[+-]? (inf | infinity | nan | mantissa exponent?)` (the words
case-insensitively), where the mantissa is `digits [. digits?] | . digits`
with at least one digit, and the exponent is `(e|E) [+-]? digits`.
Success is purely syntactic, so no IEEE-754 semantics is needed here. -/
def parseF64ok (s : ByteStr) : Bool :=
  let lower := s.map (fun b => if 65 ≤ b && b ≤ 90 then b + 32 else b)
  let body := match lower with
    | 43 :: r => r
    | 45 :: r => r
    | r => r
  if body = ascii "inf" || body = ascii "infinity" || body = ascii "nan" then
    true
  else
    let mantOk := fun (m : ByteStr) =>
      match splitByte 46 m with
      | [i] => !i.isEmpty && i.all isDigitByte
      | [i, f] =>
        i.all isDigitByte && f.all isDigitByte && (!i.isEmpty || !f.isEmpty)
      | _ => false
    let expOk := fun (e : ByteStr) =>
      let ebody := match e with
        | 43 :: r => r
        | 45 :: r => r
        | r => r
      !ebody.isEmpty && ebody.all isDigitByte
    match splitByte 101 body with
    | [m] => mantOk m
    | [m, e] => mantOk m && expOk e
    | _ => false

/-- Exact rational value of a decimal literal; stands in for the `f64`
value in the single `bid_px > offer_px` comparison of `validate_quote`.
IEEE-754 rounding is not modeled: the exact comparison agrees with the
`f64` one except when two distinct literals round to the same double.
No theorem below depends on this branch. -/
def decToRat (s : ByteStr) : ℚ :=
  let sign : ℚ := match s with | 45 :: _ => -1 | _ => 1
  let body := match s with
    | 43 :: r => r
    | 45 :: r => r
    | r => r
  match splitByte 101 (body.map fun b => if b = 69 then 101 else b) with
  | [m] =>
    (match splitByte 46 m with
     | [i] => sign * ((parseDigits i).getD 0 : ℚ)
     | [i, f] =>
       sign * (((if i.isEmpty then 0 else (parseDigits i).getD 0) : ℚ) +
         ((if f.isEmpty then 0 else (parseDigits f).getD 0) : ℚ) /
           (10 : ℚ) ^ f.length)
     | _ => 0)
  | [m, e] =>
    let mv : ℚ :=
      match splitByte 46 m with
      | [i] => ((parseDigits i).getD 0 : ℚ)
      | [i, f] =>
        ((if i.isEmpty then 0 else (parseDigits i).getD 0) : ℚ) +
          ((if f.isEmpty then 0 else (parseDigits f).getD 0) : ℚ) /
            (10 : ℚ) ^ f.length
      | _ => 0
    let ev : Int :=
      match e with
      | 45 :: r => -(((parseDigits r).getD 0 : Int))
      | 43 :: r => ((parseDigits r).getD 0 : Int)
      | r => ((parseDigits r).getD 0 : Int)
    sign * mv * (10 : ℚ) ^ ev
  | _ => 0

/-- `MessageValidator::get_required_fields` (validator.rs lines 306-338). -/
def MessageValidator.get_required_fields (mt : ByteStr) : List Int :=
  if mt = ascii "A" then [98, 108]
  else if mt = ascii "D" then [11, 55, 54, 40, 38, 59]
  else if mt = ascii "V" then [262, 263, 264, 268]
  else if mt = ascii "R" then [131, 55]
  else if mt = ascii "S" then [117, 55]
  else []

/-- Per-field value check of `validate_field_values` for one (tag, value). -/
def fieldValueOk (tag : Int) (v : ByteStr) : Bool :=
  if tag = 34 then
    match parseI32 v with
    | some n => n > 0
    | none => false
  else if tag = 44 || tag = 38 || tag = 99 || tag = 110 || tag = 111 ||
      tag = 270 || tag = 271 || tag = 132 || tag = 133 || tag = 134 ||
      tag = 135 then
    parseF64ok v
  else if tag = 52 || tag = 60 || tag = 126 || tag = 273 || tag = 62 then
    is_valid_timestamp v
  else if tag = 54 then is_valid_side v
  else if tag = 40 then is_valid_order_type v
  else if tag = 59 then is_valid_time_in_force v
  else if tag = 269 then is_valid_md_entry_type v
  else if tag = 276 then is_valid_quote_condition v
  else true

/-- `validate_field_values`: every stored field passes its typed check
(the iteration order of the `HashMap` cannot change the result). -/
def validate_field_values (m : Msg) : Bool :=
  m.fields.all fun p => fieldValueOk p.1 p.2

/-- `validate_new_order_single`: conditionally required price fields. -/
def validate_new_order_single (m : Msg) : Bool :=
  match m.getField 40 with
  | some v =>
    if v = ascii "2" then (m.getField 44).isSome
    else if v = ascii "3" then (m.getField 99).isSome
    else if v = ascii "4" then (m.getField 44).isSome && (m.getField 99).isSome
    else true
  | none => true

/-- `validate_order_cancel_replace`. -/
def validate_order_cancel_replace (m : Msg) : Bool := (m.getField 37).isSome

/-- `validate_quote_request`. -/
def validate_quote_request (m : Msg) : Bool :=
  (m.getField 131).isSome && (m.getField 55).isSome

/-- `validate_market_data_request` (validator.rs lines 150-194): requires
`{262, 263, 264, 268, 55}` — note `Symbol(55)` in addition to the
static table — then checks `SubscriptionRequestType ∈ 0..=2`,
`MarketDepth ≥ 0` and that `NoMDEntries` parses as `usize`. -/
def validate_market_data_request (m : Msg) : Bool :=
  (m.getField 262).isSome && (m.getField 263).isSome &&
  (m.getField 264).isSome && (m.getField 268).isSome &&
  (m.getField 55).isSome &&
  (match m.getField 263 with
   | some v =>
     match parseI32 v with
     | some n => 0 ≤ n && n ≤ 2
     | none => false
   | none => true) &&
  (match m.getField 264 with
   | some v =>
     match parseI32 v with
     | some n => 0 ≤ n
     | none => false
   | none => true) &&
  (match m.getField 268 with
   | some v => (parseUsize v).isSome
   | none => true)

/-- `validate_quote`: at least one of BidPx/OfferPx, sizes alongside
prices, all prices parse, and `bid_px ≤ offer_px` when both are present. -/
def validate_quote (m : Msg) : Bool :=
  ((m.getField 132).isSome || (m.getField 133).isSome) &&
  (!(m.getField 132).isSome || (m.getField 134).isSome) &&
  (!(m.getField 133).isSome || (m.getField 135).isSome) &&
  (match m.getField 132 with
   | some v => parseF64ok v
   | none => true) &&
  (match m.getField 133 with
   | some v => parseF64ok v
   | none => true) &&
  (match m.getField 132, m.getField 133 with
   | some bv, some ov =>
     if parseF64ok bv && parseF64ok ov then !(decToRat bv > decToRat ov)
     else true
   | _, _ => true)

/-- `validate_market_data_snapshot`: after the `Symbol` check it requires
`get_group(268)` to be present, but no code path reachable from the
claims ever calls `add_group` (the parser never populates groups), so
with group-less messages the check always fails. -/
def validate_market_data_snapshot (m : Msg) : Bool :=
  if (m.getField 55).isNone then false
  else false

/-- `is_valid_exec_type_ord_status`: the fixed admissible pair table. -/
def is_valid_exec_type_ord_status (et os : ByteStr) : Bool :=
  (et = ascii "0" && (os = ascii "0" || os = ascii "1")) ||
  (et = ascii "1" && (os = ascii "1" || os = ascii "2")) ||
  (et = ascii "2" && os = ascii "2") ||
  (et = ascii "4" && os = ascii "4") ||
  (et = ascii "C" && os = ascii "C")

/-- `validate_execution_report`. -/
def validate_execution_report (m : Msg) : Bool :=
  match m.getField 150, m.getField 39 with
  | some et, some os => is_valid_exec_type_ord_status et os
  | _, _ => true

/-- `validate_conditional_fields`: dispatch on the message type. -/
def validate_conditional_fields (m : Msg) : Bool :=
  if m.msgType = ascii "8" then validate_execution_report m
  else if m.msgType = ascii "D" then validate_new_order_single m
  else if m.msgType = ascii "G" then validate_order_cancel_replace m
  else if m.msgType = ascii "R" then validate_quote_request m
  else if m.msgType = ascii "V" then validate_market_data_request m
  else if m.msgType = ascii "S" then validate_quote m
  else if m.msgType = ascii "W" then validate_market_data_snapshot m
  else true

/-- `validate_sequence_numbers`. -/
def validate_sequence_numbers (m : Msg) : Bool :=
  match m.getField 34 with
  | some v =>
    match parseI32 v with
    | some n => n > 0
    | none => false
  | none => true

/-- `validate_sending_time`. -/
def validate_sending_time (m : Msg) : Bool :=
  match m.getField 52 with
  | some v => is_valid_timestamp v
  | none => true

/-- The required header tags checked first by `validate`. -/
def requiredHeader : List Int := [8, 35, 49, 56, 34, 52]

/-- `MessageValidator::validate` (validator.rs lines 9-52): the chained
early-return checks as a conjunction. -/
def MessageValidator.validate (m : Msg) : Bool :=
  (requiredHeader.all fun t => (m.getField t).isSome) &&
  ((MessageValidator.get_required_fields m.msgType).all fun t =>
    (m.getField t).isSome) &&
  validate_field_values m &&
  validate_conditional_fields m &&
  validate_sequence_numbers m &&
  validate_sending_time m

/-! ## Session state (session/state.rs)

`u64` clock values are `Nat`; the `u64` subtractions in
`should_send_test_request` / `should_disconnect` are modeled with `Nat`
subtraction, which coincides with the Rust subtraction whenever the stored
time does not exceed `now` (every theorem below is in that regime).
Persistence of the state file is a side effect with no bearing on the
returned values and is not modeled. -/

inductive Status where
  | Created | Connecting | InitiateLogon | ResendRequest | LogonReceived
  | Connected | Disconnecting | Disconnected | Error | Recovering
deriving DecidableEq, Repr

structure SessionState where
  status : Status
  next_outgoing_seq : Int
  next_incoming_seq : Int
  expected_target_seq_num : Int
  last_send_time : Nat
  last_receive_time : Nat
  test_request_counter : Int
  logon_timeout : Nat
  heartbeat_interval : Nat
  test_request_delay : Nat
deriving DecidableEq, Repr

/-- `SessionState::with_config`. -/
def SessionState.with_config
    (logon_timeout heartbeat_interval test_request_delay : Nat) :
    SessionState where
  status := .Created
  next_outgoing_seq := 1
  next_incoming_seq := 1
  expected_target_seq_num := 1
  last_send_time := 0
  last_receive_time := 0
  test_request_counter := 0
  logon_timeout := logon_timeout
  heartbeat_interval := heartbeat_interval
  test_request_delay := test_request_delay

/-- `SessionState::new` (defaults 10 / 30 / 2). -/
def SessionState.new : SessionState := SessionState.with_config 10 30 2

def SessionState.set_status (st : SessionState) (s : Status) : SessionState :=
  { st with status := s }

def SessionState.increment_incoming_seq (st : SessionState) : SessionState :=
  { st with next_incoming_seq := st.next_incoming_seq + 1 }

def SessionState.increment_outgoing_seq (st : SessionState) : SessionState :=
  { st with next_outgoing_seq := st.next_outgoing_seq + 1 }

def SessionState.reset_test_request_counter (st : SessionState) :
    SessionState :=
  { st with test_request_counter := 0 }

def SessionState.increment_test_request_counter (st : SessionState) :
    SessionState :=
  { st with test_request_counter := st.test_request_counter + 1 }

def SessionState.update_send_time (st : SessionState) (now : Nat) :
    SessionState :=
  { st with last_send_time := now }

def SessionState.update_receive_time (st : SessionState) (now : Nat) :
    SessionState :=
  { st with last_receive_time := now }

/-- `SessionState::should_send_test_request`. -/
def SessionState.should_send_test_request (st : SessionState) (now : Nat) :
    Bool :=
  now - st.last_receive_time > st.heartbeat_interval + st.test_request_delay

/-- `SessionState::should_disconnect` (state.rs lines 188-201). -/
def SessionState.should_disconnect (st : SessionState) (now : Nat) : Bool :=
  match st.status with
  | .InitiateLogon => now - st.last_send_time > st.logon_timeout
  | .Connected =>
    st.test_request_counter ≥ 2 ||
    now - st.last_receive_time > 2 * st.heartbeat_interval
  | _ => false

/-! ## Inbound message processing (session/mod.rs lines 170-270)

The body of `start_message_processor`'s loop for one successfully received
message, with I/O effects reified: `stored` collects the
`store_message(session_id, seq, msg)` calls and `sent` the
`transport.send(..)` calls, in order.  Messages taken from the
`MessagePool` are modeled as `Message::new` instances (the pools are
initialized with `Message::new` messages; `poolTs` stands for the
`SendingTime` the pooled instance carries — the claims only concern the
message type and the explicitly overwritten tags). -/

structure ProcResult where
  state : SessionState
  stored : List (Int × Msg)
  sent : List Msg
deriving Repr

/-- The `match msg.msg_type()` dispatch (session/mod.rs lines 224-255).
Returns the updated state and the messages sent by the branch. -/
def dispatchMessage (st : SessionState) (msg : Msg) (poolTs : ByteStr) :
    SessionState × List Msg :=
  if msg.msgType = ascii "A" then
    if st.status = .InitiateLogon then
      ((st.set_status .Connected).reset_test_request_counter, [])
    else (st, [])
  else if msg.msgType = ascii "1" then
    match msg.getField 112 with
    | some id => (st, [(Message.new (ascii "0") poolTs).setField 112 id])
    | none => (st, [])
  else if msg.msgType = ascii "0" then (st.reset_test_request_counter, [])
  else if msg.msgType = ascii "5" then (st.set_status .Disconnected, [])
  else (st, [])

/-- One iteration of the inbound processor on a received message
(session/mod.rs lines 180-255): sequence-gap handling (a gap sends a
`ResendRequest(2)` and `continue`s past the dispatch; otherwise the
message is stored and `next_incoming_seq` incremented), then the
type dispatch. -/
def Session.process_message (st : SessionState) (msg : Msg)
    (poolTs : ByteStr) : ProcResult :=
  match msg.getField 34 with
  | some sv =>
    match parseI32 sv with
    | some s =>
      if s > st.next_incoming_seq then
        let rr := ((Message.new (ascii "2") poolTs).setField 7
          (intToBytes st.next_incoming_seq)).setField 16 (intToBytes s)
        { state := st, stored := [], sent := [rr] }
      else
        let st1 := st.increment_incoming_seq
        let d := dispatchMessage st1 msg poolTs
        { state := d.1, stored := [(s, msg)], sent := d.2 }
    | none =>
      let d := dispatchMessage st msg poolTs
      { state := d.1, stored := [], sent := d.2 }
  | none =>
    let d := dispatchMessage st msg poolTs
    { state := d.1, stored := [], sent := d.2 }

/-! ## Message store (store/mod.rs)

The store's maps are keyed by session id; every operation below acts on
one fixed session, so the model carries that session's slice
(`messages`, the `sequence_numbers` entry, the session's transaction and
its on-disk `<sid>.messages` file) together with the process-wide
`version_counter`.  File I/O outcomes are passed in as an explicit
`ioOk` flag; `file` holds the lines of the session's message file. -/

structure Transaction where
  messages : List (Int × Msg)
  started : Bool
  version : Nat
deriving DecidableEq, Repr

structure MessageStore where
  messages : List (Int × (Msg × Nat))
  seqNum : Option Int
  txn : Option Transaction
  versionCounter : Nat
  file : List ByteStr
deriving DecidableEq, Repr

/-- A fresh `MessageStore` slice for the session. -/
def MessageStore.new : MessageStore :=
  { messages := [], seqNum := none, txn := none, versionCounter := 0,
    file := [] }

/-- `MessageStore::begin_transaction`. -/
def MessageStore.begin_transaction (st : MessageStore) :
    MessageStore × Except Unit Unit :=
  match st.txn with
  | some _ => (st, .error ())
  | none =>
    let v := st.versionCounter + 1
    ({ st with
        versionCounter := v
        txn := some { messages := [], started := true, version := v } },
     .ok ())

/-- One `seq|version|frame` line of the message file. -/
def storeLine (seq : Int) (v : Nat) (fr : ByteStr) : ByteStr :=
  intToBytes seq ++ [124] ++ natToBytes v ++ [124] ++ fr

/-- `MessageStore::store_message` (+ `persist_message` when no transaction
is open).  The in-memory index and the `sequence_numbers` entry are
updated *before* the file append, exactly as in the source. -/
def MessageStore.store_message (st : MessageStore) (seq : Int) (m : Msg)
    (ioOk : Bool) : MessageStore × Except Unit Unit :=
  match st.txn with
  | some t =>
    ({ st with txn := some { t with messages := t.messages ++ [(seq, m)] } },
     .ok ())
  | none =>
    let v := st.versionCounter + 1
    let st := { st with
      versionCounter := v
      messages := insertSorted st.messages seq (m, v)
      seqNum := some (seq + 1) }
    match Message.toString m with
    | .error _ => (st, .error ())
    | .ok fr =>
      if ioOk then
        ({ st with file := st.file ++ [storeLine seq v fr] }, .ok ())
      else (st, .error ())

/-- Serialize the buffered transaction messages into file lines; any
`to_string` failure aborts the whole write. -/
def serializeLines (v : Nat) : List (Int × Msg) → Except Unit (List ByteStr)
  | [] => .ok []
  | (seq, m) :: rest =>
    match Message.toString m with
    | .error e => .error e
    | .ok fr => (serializeLines v rest).map fun ls => storeLine seq v fr :: ls

/-- `MessageStore::commit_transaction` (store/mod.rs lines 72-121).  The
transaction is `remove`d from the map *before* any persistence is
attempted; on success the temp-file rename replaces the session file with
exactly the transaction's lines and the in-memory index absorbs the
buffered messages.  `sequence_numbers` is not touched. -/
def MessageStore.commit_transaction (st : MessageStore) (ioOk : Bool) :
    MessageStore × Except Unit Unit :=
  match st.txn with
  | none => (st, .error ())
  | some t =>
    let st := { st with txn := none }
    if !t.started then (st, .error ())
    else
      match serializeLines t.version t.messages with
      | .error _ => (st, .error ())
      | .ok lines =>
        if !ioOk then (st, .error ())
        else
          ({ st with
              file := lines
              messages := t.messages.foldl
                (fun acc p => insertSorted acc p.1 (p.2, t.version))
                st.messages },
           .ok ())

/-- `MessageStore::rollback_transaction`. -/
def MessageStore.rollback_transaction (st : MessageStore) :
    MessageStore × Except Unit Unit :=
  match st.txn with
  | none => (st, .error ())
  | some _ => ({ st with txn := none }, .ok ())

/-- `MessageStore::get_message_with_version`. -/
def MessageStore.get_message_with_version (st : MessageStore) (seq : Int) :
    Option (Msg × Nat) :=
  lookupSorted st.messages seq

/-- `MessageStore::get_message`. -/
def MessageStore.get_message (st : MessageStore) (seq : Int) : Option Msg :=
  (lookupSorted st.messages seq).map Prod.fst

/-- `MessageStore::get_next_seq_num` (defaults to 1). -/
def MessageStore.get_next_seq_num (st : MessageStore) : Int :=
  st.seqNum.getD 1

/-- `MessageStore::load_messages` (store/mod.rs lines 241-285): replay the
file's `seq|version|frame` lines (skipping any line that does not split
into three `|`-separated parts or whose parts fail to parse), then set
the `sequence_numbers` entry to `max_seq + 1` when `max_seq > 0` and the
version counter to the maximal version seen.  `ts` is the clock value
`Message::new` stamps inside `Message::from_string`. -/
def MessageStore.load_messages (st : MessageStore) (lines : List ByteStr)
    (ts : ByteStr) : MessageStore :=
  let step := fun (acc : List (Int × (Msg × Nat)) × Int × Nat)
      (line : ByteStr) =>
    match splitByte 124 line with
    | [a, b, c] =>
      match parseI32 a, parseU64 b, MessageParser.parse ts c with
      | some seq, some ver, .ok m =>
        (insertSorted acc.1 seq (m, ver), max acc.2.1 seq, max acc.2.2 ver)
      | _, _, _ => acc
    | _ => acc
  let r := lines.foldl step (st.messages, 0, 0)
  { st with
    messages := r.1,
    seqNum := if r.2.1 > 0 then some (r.2.1 + 1) else st.seqNum,
    versionCounter := if r.2.2 > 0 then r.2.2 else st.versionCounter }

example :
    (MessageParser.parse (ascii "TS")
      (ascii "8=FIX.4.2\x019=73\x0135=A\x0149=SENDER\x0156=TARGET\x0134=1\x0152=20210713-12:00:00\x0110=123\x01")).toOption.map
      Msg.msgType = some (ascii "A") := by decide

example :
    (Message.toString (Message.new (ascii "0") (ascii "20250124-12:00:00"))).toOption =
    some (ascii "8=FIX.4.2\x019=0063\x0135=0\x0134=1\x0135=0\x0149=SENDER\x0152=20250124-12:00:00\x0156=TARGET\x01" ++
      ascii "10=" ++ padZeros 3 (calculate_checksum (ascii "8=FIX.4.2\x019=0063\x0135=0\x0134=1\x0135=0\x0149=SENDER\x0152=20250124-12:00:00\x0156=TARGET\x01")) ++ [SOH]) := by
  decide

/-! ## Toolkit: canonical association lists -/

/-- The canonical-representation invariant of the `HashMap` model:
strictly increasing keys. -/
abbrev KeysSorted {α : Type} (l : List (Int × α)) : Prop :=
  List.Pairwise (fun p q => p.1 < q.1) l

theorem mem_insertSorted {α : Type} {l : List (Int × α)} {k : Int} {v : α}
    {x : Int × α} (hx : x ∈ insertSorted l k v) : x = (k, v) ∨ x ∈ l := by
  induction l with
  | nil => simpa [insertSorted] using hx
  | cons p rest ih =>
    obtain ⟨a, b⟩ := p
    simp only [insertSorted] at hx
    split at hx
    · rcases List.mem_cons.mp hx with h | h
      · exact Or.inl h
      · exact Or.inr h
    · split at hx
      · rcases List.mem_cons.mp hx with h | h
        · exact Or.inl h
        · exact Or.inr (List.mem_cons_of_mem _ h)
      · rcases List.mem_cons.mp hx with h | h
        · exact Or.inr (List.mem_cons.mpr (Or.inl h))
        · rcases ih h with h' | h'
          · exact Or.inl h'
          · exact Or.inr (List.mem_cons_of_mem _ h')

theorem keysSorted_insertSorted {α : Type} {l : List (Int × α)}
    (hl : KeysSorted l) (k : Int) (v : α) :
    KeysSorted (insertSorted l k v) := by
  induction l with
  | nil => simp [insertSorted, KeysSorted]
  | cons p rest ih =>
    obtain ⟨a, b⟩ := p
    obtain ⟨ha, hrest⟩ := List.pairwise_cons.mp hl
    simp only [insertSorted]
    split
    · rename_i h1
      refine List.Pairwise.cons ?_ (List.Pairwise.cons ha hrest)
      intro x hx
      rcases List.mem_cons.mp hx with h | h
      · subst h; exact h1
      · exact lt_trans h1 (ha x h)
    · split
      · rename_i h1 h2
        refine List.Pairwise.cons ?_ hrest
        intro x hx
        have := ha x hx
        simpa [h2] using this
      · rename_i h1 h2
        refine List.Pairwise.cons ?_ (ih hrest)
        intro x hx
        rcases mem_insertSorted hx with h' | h'
        · subst h'; simp only; omega
        · exact ha x h'

theorem lookup_insertSorted {α : Type} (l : List (Int × α)) (k j : Int)
    (v : α) :
    lookupSorted (insertSorted l k v) j =
      if k = j then some v else lookupSorted l j := by
  induction l with
  | nil =>
    by_cases hj : k = j <;> simp [insertSorted, lookupSorted, hj]
  | cons p rest ih =>
    obtain ⟨a, b⟩ := p
    simp only [insertSorted]
    split
    · rename_i h1
      by_cases hj : k = j <;> simp [lookupSorted, hj]
    · split
      · rename_i h1 h2
        subst h2
        by_cases hj : k = j <;> simp [lookupSorted, hj]
      · rename_i h1 h2
        by_cases haj : a = j
        · subst haj
          simp [lookupSorted, h2]
        · simp [lookupSorted, haj, ih]

theorem lookup_gt_none {α : Type} {a : Int} {r : List (Int × α)}
    (ha : ∀ x ∈ r, a < x.1) : lookupSorted r a = none := by
  induction r with
  | nil => rfl
  | cons q rest ih =>
    obtain ⟨c, d⟩ := q
    have hca : ¬ c = a := by
      have := ha (c, d) (by simp)
      simp only at this
      intro h'; omega
    simp only [lookupSorted, if_neg hca]
    exact ih fun x hx => ha x (List.mem_cons_of_mem _ hx)

theorem lookup_head_none {α : Type} {a : Int} {b : α} {r : List (Int × α)}
    (h : KeysSorted ((a, b) :: r)) : lookupSorted r a = none := by
  obtain ⟨ha, -⟩ := List.pairwise_cons.mp h
  exact lookup_gt_none fun x hx => ha x hx

theorem lookup_mem_keys {α : Type} {l : List (Int × α)} {k : Int} {v : α}
    (h : lookupSorted l k = some v) : k ∈ l.map Prod.fst := by
  induction l with
  | nil => simp [lookupSorted] at h
  | cons p rest ih =>
    obtain ⟨a, b⟩ := p
    by_cases ha : a = k
    · simp [ha]
    · simp only [lookupSorted, if_neg ha] at h
      exact List.mem_cons.mpr (Or.inr (ih h))

theorem sortedAssoc_ext {α : Type} {l₁ l₂ : List (Int × α)}
    (h₁ : KeysSorted l₁) (h₂ : KeysSorted l₂)
    (h : ∀ k, lookupSorted l₁ k = lookupSorted l₂ k) : l₁ = l₂ := by
  induction l₁ generalizing l₂ with
  | nil =>
    cases l₂ with
    | nil => rfl
    | cons q r₂ =>
      obtain ⟨c, d⟩ := q
      have := h c
      simp [lookupSorted] at this
  | cons p r₁ ih =>
    obtain ⟨a, b⟩ := p
    cases l₂ with
    | nil =>
      have := h a
      simp [lookupSorted] at this
    | cons q r₂ =>
      obtain ⟨c, d⟩ := q
      have hac : a = c := by
        by_contra hne
        have hca : ¬ c = a := fun h' => hne h'.symm
        have h1 : lookupSorted r₂ a = some b := by
          have := h a
          simp only [lookupSorted, if_neg hca] at this
          simpa [lookupSorted] using this.symm
        have h2 : lookupSorted r₁ c = some d := by
          have := h c
          simp only [lookupSorted, if_neg hne] at this
          simpa [lookupSorted] using this
        have hmem₁ : a ∈ r₂.map Prod.fst := lookup_mem_keys h1
        have hmem₂ : c ∈ r₁.map Prod.fst := lookup_mem_keys h2
        obtain ⟨ha', -⟩ := List.pairwise_cons.mp h₁
        obtain ⟨hc', -⟩ := List.pairwise_cons.mp h₂
        simp only [List.mem_map] at hmem₁ hmem₂
        obtain ⟨x, hx, hxa⟩ := hmem₁
        obtain ⟨y, hy, hyc⟩ := hmem₂
        have hx' := hc' x hx
        have hy' := ha' y hy
        simp only at hx' hy'
        omega
      subst hac
      have hbd : b = d := by
        have := h a
        simpa [lookupSorted] using this
      subst hbd
      have htail : ∀ k, lookupSorted r₁ k = lookupSorted r₂ k := by
        intro k
        by_cases hk : a = k
        · subst hk
          rw [lookup_head_none h₁, lookup_head_none h₂]
        · have := h k
          simpa [lookupSorted, if_neg hk] using this
      obtain ⟨-, h₁'⟩ := List.pairwise_cons.mp h₁
      obtain ⟨-, h₂'⟩ := List.pairwise_cons.mp h₂
      rw [ih h₁' h₂' htail]

/-! ## Toolkit: decimal rendering round-trips -/

theorem natToBytesCore_fuel {n : Nat} :
    ∀ {fuel₁ fuel₂ : Nat}, n ≤ fuel₁ → n ≤ fuel₂ →
      natToBytesCore fuel₁ n = natToBytesCore fuel₂ n := by
  induction n using Nat.strong_induction_on with
  | _ n ih =>
    intro fuel₁ fuel₂ h₁ h₂
    rcases n with - | k
    · rcases fuel₁ with - | f₁ <;> rcases fuel₂ with - | f₂ <;> rfl
    · rcases fuel₁ with - | f₁
      · omega
      rcases fuel₂ with - | f₂
      · omega
      by_cases hk : k + 1 < 10
      · simp [natToBytesCore, hk]
      · have hdiv : (k + 1) / 10 < k + 1 := Nat.div_lt_self (by omega) (by omega)
        have e₁ : (k + 1) / 10 ≤ f₁ := by omega
        have e₂ : (k + 1) / 10 ≤ f₂ := by omega
        simp only [natToBytesCore, if_neg hk]
        rw [ih _ hdiv e₁ e₂]

theorem natToBytes_lt {n : Nat} (h : n < 10) : natToBytes n = [48 + n] := by
  match n with
  | 0 => rfl
  | k + 1 => simp [natToBytes, natToBytesCore, h]

theorem natToBytes_ge {n : Nat} (h : 10 ≤ n) :
    natToBytes n = natToBytes (n / 10) ++ [48 + n % 10] := by
  match n, h with
  | k + 1, h =>
    have hdiv : (k + 1) / 10 < k + 1 := Nat.div_lt_self (by omega) (by omega)
    simp only [natToBytes, natToBytesCore, if_neg (by omega : ¬ k + 1 < 10)]
    rw [natToBytesCore_fuel (by omega) (le_refl _)]

theorem natToBytes_digits {n : Nat} : ∀ b ∈ natToBytes n, 48 ≤ b ∧ b ≤ 57 := by
  induction n using Nat.strong_induction_on with
  | _ n ih =>
    by_cases h : n < 10
    · rw [natToBytes_lt h]; intro b hb; simp at hb; omega
    · rw [natToBytes_ge (by omega)]
      intro b hb
      rcases List.mem_append.mp hb with hb | hb
      · exact ih _ (Nat.div_lt_self (by omega) (by omega)) b hb
      · simp at hb
        have : n % 10 < 10 := Nat.mod_lt _ (by omega)
        omega

theorem natToBytes_ne_nil {n : Nat} : natToBytes n ≠ [] := by
  by_cases h : n < 10
  · rw [natToBytes_lt h]; simp
  · rw [natToBytes_ge (by omega)]; simp

theorem foldl_val_natToBytes {n : Nat} :
    (natToBytes n).foldl (fun acc b => acc * 10 + (b - 48)) 0 = n := by
  induction n using Nat.strong_induction_on with
  | _ n ih =>
    by_cases h : n < 10
    · rw [natToBytes_lt h]; simp
    · rw [natToBytes_ge (by omega), List.foldl_append]
      rw [ih _ (Nat.div_lt_self (by omega) (by omega))]
      simp only [List.foldl_cons, List.foldl_nil]
      omega

theorem parseDigits_natToBytes {n : Nat} :
    parseDigits (natToBytes n) = some n := by
  have hd := @natToBytes_digits n
  have hne := @natToBytes_ne_nil n
  simp only [parseDigits, ne_eq, hne, not_false_iff, true_and]
  rw [if_pos, foldl_val_natToBytes]
  rw [List.all_eq_true]
  intro b hb
  have := hd b hb
  simpa using this

theorem natToBytes_head_digit {n : Nat} :
    ∃ b rest, natToBytes n = b :: rest ∧ 48 ≤ b ∧ b ≤ 57 := by
  rcases hx : natToBytes n with - | ⟨b, rest⟩
  · exact absurd hx natToBytes_ne_nil
  · refine ⟨b, rest, rfl, ?_⟩
    have := natToBytes_digits b (by rw [hx]; simp)
    exact this

theorem parseI32_intToBytes {t : Int} (h1 : 0 ≤ t) (h2 : t ≤ 2147483647) :
    parseI32 (intToBytes t) = some t := by
  have hneg : ¬ t < 0 := by omega
  simp only [intToBytes, if_neg hneg]
  obtain ⟨b, rest, hcons, hb1, hb2⟩ := @natToBytes_head_digit t.toNat
  rw [hcons]
  have hval : parseDigits (b :: rest) = some t.toNat := by
    rw [← hcons]; exact parseDigits_natToBytes
  have hb43 : b ≠ 43 := by omega
  have hb45 : b ≠ 45 := by omega
  have hbound : t.toNat ≤ 2147483647 := by omega
  unfold parseI32
  split
  · rename_i heq; injection heq with h1 h2; omega
  · rename_i heq; injection heq with h1 h2; omega
  · rw [hval]
    simp only [Option.some_bind, if_pos hbound, Option.some.injEq]
    omega

theorem parseU64_natToBytes {n : Nat} (h : n ≤ 18446744073709551615) :
    parseU64 (natToBytes n) = some n := by
  obtain ⟨b, rest, hcons, hb1, hb2⟩ := @natToBytes_head_digit n
  rw [hcons]
  have hval : parseDigits (b :: rest) = some n := by
    rw [← hcons]; exact parseDigits_natToBytes
  have hb43 : b ≠ 43 := by omega
  unfold parseU64
  split
  · rename_i heq; injection heq with h1 h2; omega
  · rw [hval]
    simp [h]

/-! ## Toolkit: splitting, searching and replacing -/

theorem splitByte_ne_nil {sep : Nat} {s : ByteStr} : splitByte sep s ≠ [] := by
  induction s with
  | nil => simp [splitByte]
  | cons b rest ih =>
    by_cases hb : b = sep
    · simp [splitByte, hb]
    · simp only [splitByte, if_neg hb]
      rcases h : splitByte sep rest with - | ⟨p, ps⟩
      · simp
      · simp

theorem splitByte_sepFree {sep : Nat} {s : ByteStr} (h : sep ∉ s) :
    splitByte sep s = [s] := by
  induction s with
  | nil => rfl
  | cons b rest ih =>
    have hb : ¬ b = sep := fun h' => h (by simp [h'])
    have := ih (fun h' => h (List.mem_cons_of_mem _ h'))
    simp [splitByte, hb, this]

theorem splitByte_append_sep {sep : Nat} {x s : ByteStr} (hx : sep ∉ x) :
    splitByte sep (x ++ sep :: s) = x :: splitByte sep s := by
  induction x with
  | nil => simp [splitByte]
  | cons b rest ih =>
    have hb : ¬ b = sep := fun h' => hx (by simp [h'])
    have hstep := ih (fun h' => hx (List.mem_cons_of_mem _ h'))
    simp only [List.cons_append, splitByte, if_neg hb, List.append_eq, hstep]

theorem splitByte_chunks {sep : Nat} {ps : List ByteStr} {tail : ByteStr}
    (h : ∀ p ∈ ps, sep ∉ p) :
    splitByte sep ((ps.map (· ++ [sep])).flatten ++ tail) =
      ps ++ splitByte sep tail := by
  induction ps with
  | nil => simp
  | cons p rest ih =>
    have hp : sep ∉ p := h p (by simp)
    have step := ih fun q hq => h q (List.mem_cons_of_mem _ hq)
    have hsplit : ((p ++ [sep]) :: rest.map (· ++ [sep])).flatten ++ tail =
        p ++ sep :: ((rest.map (· ++ [sep])).flatten ++ tail) := by
      simp
    rw [List.map_cons, hsplit, splitByte_append_sep hp, step, List.cons_append]

theorem splitByte_pair {sep : Nat} {a v : ByteStr} (ha : sep ∉ a)
    (hv : sep ∉ v) : splitByte sep (a ++ sep :: v) = [a, v] := by
  rw [splitByte_append_sep ha, splitByte_sepFree hv]

theorem findSub_cons_of_head_ne {pat : ByteStr} {h0 : Nat} {pt : ByteStr}
    {b : Nat} {s : ByteStr} (hpat : pat = h0 :: pt) (hne : b ≠ h0) :
    findSub pat (b :: s) = (findSub pat s).map (· + 1) := by
  subst hpat
  have : ¬ (h0 :: pt).isPrefixOf (b :: s) := by
    simp [List.isPrefixOf]
    intro h'
    exact absurd h'.symm hne
  simp [findSub, this]

theorem findSub_append_front {pat A s : ByteStr} {h0 : Nat} {pt : ByteStr}
    (hpat : pat = h0 :: pt) (hA : h0 ∉ A) (hs : pat.isPrefixOf s) :
    findSub pat (A ++ s) = some A.length := by
  induction A with
  | nil =>
    cases s with
    | nil => subst hpat; simp [List.isPrefixOf] at hs
    | cons c cs => simp [findSub, hs]
  | cons a A' ih =>
    have hne : a ≠ h0 := fun h' => hA (by simp [h'])
    rw [List.cons_append,
      findSub_cons_of_head_ne hpat hne,
      ih fun h' => hA (List.mem_cons_of_mem _ h')]
    simp

theorem replaceAllCore_fuel_aux {pat rep : ByteStr} :
    ∀ (n : Nat) (s : ByteStr), s.length ≤ n → ∀ {fuel₁ fuel₂ : Nat},
      s.length ≤ fuel₁ → s.length ≤ fuel₂ →
      replaceAllCore pat rep fuel₁ s = replaceAllCore pat rep fuel₂ s := by
  intro n
  induction n with
  | zero =>
    intro s hs fuel₁ fuel₂ h₁ h₂
    have : s = [] := List.length_eq_zero.mp (by omega)
    subst this
    rcases fuel₁ with - | f₁ <;> rcases fuel₂ with - | f₂ <;> rfl
  | succ n ih =>
    intro s hs fuel₁ fuel₂ h₁ h₂
    rcases s with - | ⟨b, rest⟩
    · rcases fuel₁ with - | f₁ <;> rcases fuel₂ with - | f₂ <;> rfl
    · rcases fuel₁ with - | f₁
      · simp at h₁
      rcases fuel₂ with - | f₂
      · simp at h₂
      simp only [replaceAllCore]
      split
      · rename_i hcond
        congr 1
        have hplen : 1 ≤ pat.length := by
          rcases pat with - | ⟨p0, pt⟩
          · exact absurd rfl hcond.2
          · simp
        have hds : ((b :: rest).drop pat.length).length ≤ n := by
          simp only [List.length_drop, List.length_cons]
          simp only [List.length_cons] at hs
          omega
        exact ih _ hds (by simp only [List.length_drop, List.length_cons] at *; omega)
          (by simp only [List.length_drop, List.length_cons] at *; omega)
      · congr 1
        have hrest : rest.length ≤ n := by simp at hs; omega
        exact ih rest hrest (by simp at h₁; omega) (by simp at h₂; omega)

theorem replaceAllCore_fuel {pat rep : ByteStr} {s : ByteStr}
    {fuel₁ fuel₂ : Nat} (h₁ : s.length ≤ fuel₁) (h₂ : s.length ≤ fuel₂) :
    replaceAllCore pat rep fuel₁ s = replaceAllCore pat rep fuel₂ s :=
  replaceAllCore_fuel_aux s.length s (le_refl _) h₁ h₂

theorem replaceAll_cons (pat rep : ByteStr) (b : Nat) (s : ByteStr) :
    replaceAll pat rep (b :: s) =
      if pat.isPrefixOf (b :: s) ∧ pat ≠ [] then
        rep ++ replaceAll pat rep ((b :: s).drop pat.length)
      else b :: replaceAll pat rep s := by
  show replaceAllCore pat rep (b :: s).length (b :: s) = _
  simp only [List.length_cons, replaceAllCore]
  split
  · rename_i hcond
    congr 1
    apply replaceAllCore_fuel
    · have hplen : 1 ≤ pat.length := by
        rcases pat with - | ⟨p0, pt⟩
        · exact absurd rfl hcond.2
        · simp
      simp only [List.length_drop, List.length_cons]
      omega
    · exact le_refl _
  · rfl

theorem replaceAll_no_occ {pat rep s : ByteStr}
    (hno : findSub pat s = none) : replaceAll pat rep s = s := by
  induction s with
  | nil => rfl
  | cons b rest ih =>
    have h1 : ¬ pat.isPrefixOf (b :: rest) := by
      intro h'
      simp [findSub, h'] at hno
    have h2 : findSub pat rest = none := by
      simp only [findSub, if_neg h1, Option.map_eq_none'] at hno
      exact hno
    rw [replaceAll_cons, if_neg (by tauto), ih h2]

theorem replaceAll_single_occ {pat rep A B : ByteStr} {h0 : Nat}
    {pt : ByteStr} (hpat : pat = h0 :: pt) (hA : h0 ∉ A)
    (hno : findSub pat B = none) :
    replaceAll pat rep (A ++ (pat ++ B)) = A ++ (rep ++ B) := by
  induction A with
  | nil =>
    simp only [List.nil_append]
    have hpre : pat.isPrefixOf (pat ++ B) := by
      rw [List.isPrefixOf_iff_prefix]
      exact List.prefix_append pat B
    rcases hp : pat with - | ⟨q0, qt⟩
    · rw [hp] at hpat; exact absurd hpat (by simp)
    · rw [← hp]
      rw [show pat ++ B = h0 :: (pt ++ B) by rw [hpat]; simp]
      rw [replaceAll_cons]
      rw [if_pos ⟨by rw [show h0 :: (pt ++ B) = pat ++ B by rw [hpat]; simp]; exact hpre,
        by rw [hpat]; simp⟩]
      rw [show (h0 :: (pt ++ B)).drop pat.length = B by
        rw [show h0 :: (pt ++ B) = pat ++ B by rw [hpat]; simp]
        exact List.drop_left pat B]
      rw [replaceAll_no_occ hno]
  | cons a A' ih =>
    have hne : ¬ pat.isPrefixOf (a :: (A' ++ (pat ++ B))) := by
      rw [hpat]
      simp only [List.isPrefixOf]
      have : a ≠ h0 := fun h' => hA (by simp [h'])
      simp [this, beq_iff_eq]
      intro h'
      exact absurd h'.symm this
    rw [List.cons_append, replaceAll_cons, if_neg (by tauto),
      ih fun h' => hA (List.mem_cons_of_mem _ h')]
    simp

theorem foldl_emit (l : List (Int × ByteStr)) (init : ByteStr) :
    l.foldl (fun acc p => acc ++ intToBytes p.1 ++ [61] ++ p.2 ++ [SOH])
      init =
      init ++
        (l.map fun p => intToBytes p.1 ++ [61] ++ p.2 ++ [SOH]).flatten := by
  induction l generalizing init with
  | nil => simp
  | cons p rest ih =>
    simp only [List.foldl_cons, List.map_cons, List.flatten_cons]
    rw [ih]
    simp [List.append_assoc]

theorem insertionSort_eq_of_keysSorted {l : List (Int × ByteStr)}
    (h : KeysSorted l) :
    List.insertionSort (fun p q => p.1 ≤ q.1) l = l :=
  List.Sorted.insertionSort_eq (List.Pairwise.imp (fun h' => le_of_lt h') h)

/-! ## Derived characterization of the serializer

The following two definitions are *derived* normal forms of the output of
the embedded `Message::to_string`, introduced only to state theorems; they
are related to the embedding by `toString_explicit` below. -/

/-- The bytes a serialization emits after the `9=0000<SOH>` placeholder:
`35=<type><SOH>` followed by every field except tags 8, 9, 10 in
ascending tag order. -/
def bodyOf (m : Msg) : ByteStr :=
  ascii "35=" ++ m.msgType ++ [SOH] ++
    ((m.fields.filter fun p => p.1 ≠ 8 ∧ p.1 ≠ 9 ∧ p.1 ≠ 10).map fun p =>
      intToBytes p.1 ++ [61] ++ p.2 ++ [SOH]).flatten

/-- The complete frame `Message::to_string` produces (for a message whose
BeginString is `FIX.4.2` and whose body does not accidentally contain the
placeholder bytes): note the emitted BodyLength value is
`7 + (bodyOf m).length`, i.e. it includes the 7 bytes of the
`9=0000<SOH>` field itself. -/
def frameOf (m : Msg) : ByteStr :=
  ascii "8=FIX.4.2" ++ [SOH] ++
    (ascii "9=" ++ padZeros 4 (7 + (bodyOf m).length) ++ [SOH] ++ bodyOf m) ++
    ascii "10=" ++
    padZeros 3 (calculate_checksum (ascii "8=FIX.4.2" ++ [SOH] ++
      (ascii "9=" ++ padZeros 4 (7 + (bodyOf m).length) ++ [SOH] ++
        bodyOf m))) ++ [SOH]

theorem toString_explicit (m : Msg) (hks : KeysSorted m.fields)
    (h8 : m.getField 8 = some (ascii "FIX.4.2"))
    (hocc : findSub (ascii "9=0000" ++ [SOH]) (bodyOf m) = none) :
    Message.toString m = .ok (frameOf m) := by
  rw [Message.toString.eq_def, h8]
  simp only [insertionSort_eq_of_keysSorted hks, foldl_emit]
  have hA : (57 : Nat) ∉ ascii "8=FIX.4.2" ++ [SOH] := by decide
  have hassoc :
      ascii "8=" ++ ascii "FIX.4.2" ++ [SOH] ++ ascii "9=0000" ++ [SOH] ++
          ascii "35=" ++ m.msgType ++ [SOH] ++
          ((m.fields.filter fun p => p.1 ≠ 8 ∧ p.1 ≠ 9 ∧ p.1 ≠ 10).map
            fun p => intToBytes p.1 ++ [61] ++ p.2 ++ [SOH]).flatten =
        (ascii "8=FIX.4.2" ++ [SOH]) ++ ((ascii "9=0000" ++ [SOH]) ++
          bodyOf m) := by
    rw [show ascii "8=" ++ ascii "FIX.4.2" = ascii "8=FIX.4.2" by decide]
    simp [bodyOf, List.append_assoc]
  rw [hassoc]
  have hconsform : (ascii "9=0000" ++ [SOH]) ++ bodyOf m =
      57 :: 61 :: (([48, 48, 48, 48, 1] : ByteStr) ++ bodyOf m) := by
    rw [show ascii "9=0000" ++ [SOH] =
      57 :: 61 :: ([48, 48, 48, 48, 1] : ByteStr) by decide]
    simp
  have hfind : findSub (ascii "9=")
      ((ascii "8=FIX.4.2" ++ [SOH]) ++ ((ascii "9=0000" ++ [SOH]) ++
        bodyOf m)) = some 10 := by
    rw [findSub_append_front (show ascii "9=" = 57 :: [61] by decide) hA
      (by
        rw [show ascii "9=" = 57 :: [61] by decide, hconsform]
        simp [List.isPrefixOf])]
    decide
  rw [hfind]
  have hdrop : (((ascii "8=FIX.4.2" ++ [SOH]) ++ ((ascii "9=0000" ++ [SOH]) ++
      bodyOf m)).drop ((some 10).getD 0)).length = 7 + (bodyOf m).length := by
    rw [show (some 10).getD 0 = (ascii "8=FIX.4.2" ++ [SOH]).length by decide]
    rw [List.drop_left]
    rw [List.length_append]
    rw [show (ascii "9=0000" ++ [SOH]).length = 7 by decide]
  rw [hdrop]
  rw [replaceAll_single_occ
    (show ascii "9=0000" ++ [SOH] = 57 :: [61, 48, 48, 48, 48, 1] by decide)
    hA hocc]
  simp [frameOf, List.append_assoc]

/-! ## Toolkit: parsing the serialized frame -/

theorem padZeros_digits {w n : Nat} : ∀ b ∈ padZeros w n, 48 ≤ b ∧ b ≤ 57 := by
  intro b hb
  simp only [padZeros] at hb
  rcases List.mem_append.mp hb with h | h
  · have := List.eq_of_mem_replicate h
    omega
  · exact natToBytes_digits b h

theorem intToBytes_bytes {t : Int} :
    ∀ b ∈ intToBytes t, b = 45 ∨ (48 ≤ b ∧ b ≤ 57) := by
  intro b hb
  simp only [intToBytes] at hb
  split at hb
  · rcases List.mem_cons.mp hb with h | h
    · exact Or.inl h
    · exact Or.inr (natToBytes_digits b h)
  · exact Or.inr (natToBytes_digits b hb)

theorem mem_lookup_of_sorted {α : Type} {l : List (Int × α)}
    (hl : KeysSorted l) {k : Int} {v : α} (hm : (k, v) ∈ l) :
    lookupSorted l k = some v := by
  induction l with
  | nil => simp at hm
  | cons p rest ih =>
    obtain ⟨a, b⟩ := p
    obtain ⟨ha, hrest⟩ := List.pairwise_cons.mp hl
    rcases List.mem_cons.mp hm with h | h
    · injection h with h1 h2
      subst h1; subst h2
      simp [lookupSorted]
    · have hak : ¬ a = k := by
        have := ha _ h
        simp only at this
        intro h'; omega
      simp only [lookupSorted, if_neg hak]
      exact ih hrest h

theorem lookup_filter_keys {α : Type} {l : List (Int × α)}
    {P : Int → Prop} [DecidablePred P] {k : Int} :
    lookupSorted (l.filter fun p => P p.1) k =
      if P k then lookupSorted l k else none := by
  induction l with
  | nil => simp [lookupSorted]
  | cons p rest ih =>
    obtain ⟨a, b⟩ := p
    by_cases hP : P a
    · by_cases hak : a = k
      · subst hak
        simp [List.filter_cons, hP, lookupSorted, ih]
      · simp [List.filter_cons, hP, lookupSorted, hak, ih]
    · by_cases hak : a = k
      · subst hak
        simp [List.filter_cons, hP, lookupSorted, ih]
      · simp [List.filter_cons, hP, lookupSorted, hak, ih]

theorem lookup_filter_8910 {α : Type} {l : List (Int × α)} {k : Int} :
    lookupSorted (l.filter fun p => p.1 ≠ 8 ∧ p.1 ≠ 9 ∧ p.1 ≠ 10) k =
      if k ≠ 8 ∧ k ≠ 9 ∧ k ≠ 10 then lookupSorted l k else none := by
  induction l with
  | nil => simp [lookupSorted]
  | cons p rest ih =>
    obtain ⟨a, b⟩ := p
    rw [List.filter_cons]
    by_cases hP : a ≠ 8 ∧ a ≠ 9 ∧ a ≠ 10
    · rw [if_pos (by simpa using hP)]
      by_cases hak : a = k
      · subst hak
        rw [if_pos hP]
        simp [lookupSorted]
      · simp only [lookupSorted, if_neg hak]
        exact ih
    · rw [if_neg (by simpa using hP)]
      rw [ih]
      by_cases hkP : k ≠ 8 ∧ k ≠ 9 ∧ k ≠ 10
      · rw [if_pos hkP, if_pos hkP]
        have hak : ¬ a = k := fun h => hP (h ▸ hkP)
        simp [lookupSorted, hak]
      · rw [if_neg hkP, if_neg hkP]

theorem foldl_setField_lookup {fs : List (Int × ByteStr)}
    (hfs : KeysSorted fs) (l₀ : List (Int × ByteStr)) (k : Int) :
    lookupSorted
      (fs.foldl (fun acc p => insertSorted acc p.1 p.2) l₀) k =
      match lookupSorted fs k with
      | some v => some v
      | none => lookupSorted l₀ k := by
  induction fs generalizing l₀ with
  | nil => simp [lookupSorted]
  | cons p rest ih =>
    obtain ⟨a, b⟩ := p
    obtain ⟨ha, hrest⟩ := List.pairwise_cons.mp hfs
    simp only [List.foldl_cons]
    rw [ih hrest]
    by_cases hak : a = k
    · subst hak
      have : lookupSorted rest a = none :=
        lookup_gt_none fun x hx => ha x hx
      simp [this, lookupSorted, lookup_insertSorted]
    · simp [lookupSorted, hak, lookup_insertSorted]

theorem foldl_setField_sorted {fs : List (Int × ByteStr)}
    {l₀ : List (Int × ByteStr)} (h₀ : KeysSorted l₀) :
    KeysSorted (fs.foldl (fun acc p => insertSorted acc p.1 p.2) l₀) := by
  induction fs generalizing l₀ with
  | nil => exact h₀
  | cons p rest ih =>
    simp only [List.foldl_cons]
    exact ih (keysSorted_insertSorted h₀ _ _)

theorem foldl_track_of_unique {fs : List (Int × ByteStr)}
    (hfs : KeysSorted fs) {k : Int}
    (f : ByteStr → Option Int) (e : Option Int) :
    fs.foldl (fun acc p => if p.1 = k then f p.2 else acc) e =
      match lookupSorted fs k with
      | some v => f v
      | none => e := by
  induction fs generalizing e with
  | nil => simp [lookupSorted]
  | cons p rest ih =>
    obtain ⟨a, b⟩ := p
    obtain ⟨ha, hrest⟩ := List.pairwise_cons.mp hfs
    simp only [List.foldl_cons]
    rw [ih hrest]
    by_cases hak : a = k
    · subst hak
      have : lookupSorted rest a = none :=
        lookup_gt_none fun x hx => ha x hx
      simp [this, lookupSorted]
    · simp [lookupSorted, hak]

theorem foldl_count_of_unique {fs : List (Int × ByteStr)}
    (hfs : KeysSorted fs) {k : Int} (c : Int) :
    fs.foldl (fun acc p => if p.1 = k then acc + 1 else acc) c =
      if (lookupSorted fs k).isSome then c + 1 else c := by
  induction fs generalizing c with
  | nil => simp [lookupSorted]
  | cons p rest ih =>
    obtain ⟨a, b⟩ := p
    obtain ⟨ha, hrest⟩ := List.pairwise_cons.mp hfs
    simp only [List.foldl_cons]
    rw [ih hrest]
    by_cases hak : a = k
    · subst hak
      have : lookupSorted rest a = none :=
        lookup_gt_none fun x hx => ha x hx
      simp [this, lookupSorted]
    · simp [lookupSorted, hak]

/-- The checksum value the serializer emits. -/
def checksumOf (m : Msg) : Nat :=
  calculate_checksum (ascii "8=FIX.4.2" ++ [SOH] ++
    (ascii "9=" ++ padZeros 4 (7 + (bodyOf m).length) ++ [SOH] ++ bodyOf m))

theorem splitSOH_frameOf (m : Msg) (hmt : SOH ∉ m.msgType)
    (hv : ∀ p ∈ m.fields, SOH ∉ p.2) :
    splitByte SOH (frameOf m) =
      [ascii "8=FIX.4.2", ascii "9=" ++ padZeros 4 (7 + (bodyOf m).length),
        ascii "35=" ++ m.msgType] ++
      ((m.fields.filter fun p => p.1 ≠ 8 ∧ p.1 ≠ 9 ∧ p.1 ≠ 10).map fun p =>
        intToBytes p.1 ++ 61 :: p.2) ++
      [ascii "10=" ++ padZeros 3 (checksumOf m), []] := by
  have hframe : frameOf m =
      (([ascii "8=FIX.4.2", ascii "9=" ++ padZeros 4 (7 + (bodyOf m).length),
          ascii "35=" ++ m.msgType] ++
        ((m.fields.filter fun p => p.1 ≠ 8 ∧ p.1 ≠ 9 ∧ p.1 ≠ 10).map fun p =>
          intToBytes p.1 ++ 61 :: p.2) ++
        [ascii "10=" ++ padZeros 3 (checksumOf m)]).map (· ++ [SOH])).flatten
        ++ [] := by
    simp only [frameOf, checksumOf, bodyOf, List.map_append, List.map_cons,
      List.map_nil, List.flatten_append, List.flatten_cons, List.flatten_nil,
      List.map_map]
    have : ((fun x => x ++ [SOH]) ∘ fun p : Int × ByteStr =>
        intToBytes p.1 ++ 61 :: p.2) =
        fun p : Int × ByteStr => intToBytes p.1 ++ [61] ++ p.2 ++ [SOH] := by
      funext p
      simp [List.append_assoc]
    rw [this]
    simp [List.append_assoc]
  rw [hframe, splitByte_chunks]
  · simp [splitByte]
  · intro p hp
    have hS : SOH = 1 := rfl
    rcases List.mem_append.mp hp with hL | hR
    · rcases List.mem_append.mp hL with hH | hF
      · rcases List.mem_cons.mp hH with h | hH
        · subst h; decide
        rcases List.mem_cons.mp hH with h | hH
        · subst h
          intro hmem
          rcases List.mem_append.mp hmem with h' | h'
          · revert h'; decide
          · have := padZeros_digits _ h'
            omega
        rcases List.mem_cons.mp hH with h | hH
        · subst h
          intro hmem
          rcases List.mem_append.mp hmem with h' | h'
          · revert h'; decide
          · exact hmt h'
        · simp at hH
      · obtain ⟨q, hq, rfl⟩ := List.mem_map.mp hF
        intro hmem
        rcases List.mem_append.mp hmem with h' | h'
        · rcases intToBytes_bytes _ h' with h'' | h'' <;> omega
        · rcases List.mem_cons.mp h' with h'' | h''
          · omega
          · exact hv q (List.mem_of_mem_filter hq) h''
    · rcases List.mem_cons.mp hR with h | hR
      · subst h
        intro hmem
        rcases List.mem_append.mp hmem with h' | h'
        · revert h'; decide
        · have := padZeros_digits _ h'
          omega
      · simp at hR

theorem firstPass_cons_split {p : ByteStr} {rest : List ByteStr}
    {bs mt : Option ByteStr} {a v : ByteStr}
    (hp : ¬ p = []) (hsplit : splitByte 61 p = [a, v]) :
    firstPass (p :: rest) bs mt =
      match parseI32 a with
      | some 8 => firstPass rest (some v) mt
      | some 35 => firstPass rest bs (some v)
      | _ => firstPass rest bs mt := by
  simp only [firstPass, if_neg hp, hsplit]

theorem secondPass_cons_split {p : ByteStr} {rest : List ByteStr} {m : Msg}
    {exp : Option Int} {cnt : Int} {a v : ByteStr}
    (hp : ¬ p = []) (hsplit : splitByte 61 p = [a, v]) :
    secondPass (p :: rest) m exp cnt =
      match parseI32 a with
      | some tag =>
        secondPass rest (m.setField tag v)
          (if tag = 268 then parseI32 v else exp)
          (if tag = 269 then cnt + 1 else cnt)
      | none => .error () := by
  simp only [secondPass, if_neg hp, hsplit]

theorem firstPass_fields {fs : List (Int × ByteStr)} {rest : List ByteStr}
    {bs : Option ByteStr} {mtv : ByteStr}
    (hf : ∀ p ∈ fs, 0 ≤ p.1 ∧ p.1 ≤ 2147483647 ∧ (61 : Nat) ∉ p.2 ∧
      p.1 ≠ 8 ∧ (p.1 = 35 → p.2 = mtv)) :
    firstPass ((fs.map fun p => intToBytes p.1 ++ 61 :: p.2) ++ rest) bs
      (some mtv) = firstPass rest bs (some mtv) := by
  induction fs with
  | nil => simp
  | cons p fs' ih =>
    obtain ⟨a, v⟩ := p
    obtain ⟨h1, h2, h3, h4, h5⟩ := hf (a, v) (by simp)
    dsimp only at h1 h2 h3 h4 h5
    have hne : ¬ intToBytes a ++ 61 :: v = [] := by simp
    have h61a : (61 : Nat) ∉ intToBytes a := by
      intro hmem
      rcases intToBytes_bytes _ hmem with h | h <;> omega
    have hsp : splitByte 61 (intToBytes a ++ 61 :: v) = [intToBytes a, v] :=
      splitByte_pair h61a h3
    rw [List.map_cons, List.cons_append, firstPass_cons_split hne hsp,
      parseI32_intToBytes h1 h2]
    have hstep := ih fun q hq => hf q (List.mem_cons_of_mem _ hq)
    by_cases ha35 : a = 35
    · subst ha35
      rw [h5 rfl]
      simp only []
      exact hstep
    · have ha8 : a ≠ 8 := by simpa using h4
      split
      · rename_i heq
        injection heq with heq'
        omega
      · rename_i heq
        injection heq with heq'
        omega
      · exact hstep

theorem secondPass_fields {fs : List (Int × ByteStr)} {rest : List ByteStr}
    {m : Msg} {exp : Option Int} {cnt : Int}
    (hf : ∀ p ∈ fs, 0 ≤ p.1 ∧ p.1 ≤ 2147483647 ∧ (61 : Nat) ∉ p.2) :
    secondPass ((fs.map fun p => intToBytes p.1 ++ 61 :: p.2) ++ rest) m exp
      cnt =
      secondPass rest (fs.foldl (fun acc p => acc.setField p.1 p.2) m)
        (fs.foldl (fun e p => if p.1 = 268 then parseI32 p.2 else e) exp)
        (fs.foldl (fun c p => if p.1 = 269 then c + 1 else c) cnt) := by
  induction fs generalizing m exp cnt with
  | nil => simp
  | cons p fs' ih =>
    obtain ⟨a, v⟩ := p
    obtain ⟨h1, h2, h3⟩ := hf (a, v) (by simp)
    dsimp only at h1 h2 h3
    have hne : ¬ intToBytes a ++ 61 :: v = [] := by simp
    have h61a : (61 : Nat) ∉ intToBytes a := by
      intro hmem
      rcases intToBytes_bytes _ hmem with h | h <;> omega
    have hsp : splitByte 61 (intToBytes a ++ 61 :: v) = [intToBytes a, v] :=
      splitByte_pair h61a h3
    rw [List.map_cons, List.cons_append, secondPass_cons_split hne hsp,
      parseI32_intToBytes h1 h2]
    simp only [List.foldl_cons]
    exact ih fun q hq => hf q (List.mem_cons_of_mem _ hq)

theorem firstPass_nil {bs mt : Option ByteStr} :
    firstPass [] bs mt = .ok (bs, mt) := rfl

theorem firstPass_cons_empty {rest : List ByteStr} {bs mt : Option ByteStr} :
    firstPass ([] :: rest) bs mt = firstPass rest bs mt := by
  simp [firstPass]

theorem firstPass_cons_tag8 {p : ByteStr} {rest : List ByteStr}
    {bs mt : Option ByteStr} {a v : ByteStr} (hp : ¬ p = [])
    (hsplit : splitByte 61 p = [a, v]) (ha : parseI32 a = some 8) :
    firstPass (p :: rest) bs mt = firstPass rest (some v) mt := by
  rw [firstPass_cons_split hp hsplit, ha]
  rfl

theorem firstPass_cons_tag35 {p : ByteStr} {rest : List ByteStr}
    {bs mt : Option ByteStr} {a v : ByteStr} (hp : ¬ p = [])
    (hsplit : splitByte 61 p = [a, v]) (ha : parseI32 a = some 35) :
    firstPass (p :: rest) bs mt = firstPass rest bs (some v) := by
  rw [firstPass_cons_split hp hsplit, ha]
  rfl

theorem firstPass_cons_tagOther {p : ByteStr} {rest : List ByteStr}
    {bs mt : Option ByteStr} {a v : ByteStr} {t : Int} (hp : ¬ p = [])
    (hsplit : splitByte 61 p = [a, v]) (ha : parseI32 a = some t)
    (h8 : t ≠ 8) (h35 : t ≠ 35) :
    firstPass (p :: rest) bs mt = firstPass rest bs mt := by
  rw [firstPass_cons_split hp hsplit, ha]
  split
  · rename_i heq; injection heq with heq'; omega
  · rename_i heq; injection heq with heq'; omega
  · rfl

theorem secondPass_nil {m : Msg} {exp : Option Int} {cnt : Int} :
    secondPass [] m exp cnt = .ok (m, exp, cnt) := rfl

theorem secondPass_cons_empty {rest : List ByteStr} {m : Msg}
    {exp : Option Int} {cnt : Int} :
    secondPass ([] :: rest) m exp cnt = secondPass rest m exp cnt := by
  simp [secondPass]

theorem secondPass_cons_tag_other {p : ByteStr} {rest : List ByteStr}
    {m : Msg} {exp : Option Int} {cnt : Int} {a v : ByteStr} {t : Int}
    (hp : ¬ p = []) (hsplit : splitByte 61 p = [a, v])
    (ha : parseI32 a = some t) (h268 : t ≠ 268) (h269 : t ≠ 269) :
    secondPass (p :: rest) m exp cnt =
      secondPass rest (m.setField t v) exp cnt := by
  rw [secondPass_cons_split hp hsplit, ha]
  simp [h268, h269]

theorem setField_fields (m : Msg) (t : Int) (v : ByteStr) :
    (m.setField t v).fields = insertSorted m.fields t v := rfl

theorem setField_msgType (m : Msg) (t : Int) (v : ByteStr) :
    (m.setField t v).msgType = m.msgType := rfl

theorem foldMsg_fields (fs : List (Int × ByteStr)) (base : Msg) :
    (fs.foldl (fun acc p => acc.setField p.1 p.2) base).fields =
      fs.foldl (fun l p => insertSorted l p.1 p.2) base.fields := by
  induction fs generalizing base with
  | nil => rfl
  | cons p rest ih =>
    simp only [List.foldl_cons]
    rw [ih]
    rfl

theorem foldMsg_msgType (fs : List (Int × ByteStr)) (base : Msg) :
    (fs.foldl (fun acc p => acc.setField p.1 p.2) base).msgType =
      base.msgType := by
  induction fs generalizing base with
  | nil => rfl
  | cons p rest ih =>
    simp only [List.foldl_cons]
    rw [ih]
    rfl

/-- The message the parser reconstructs from a serialized frame: the
original fields with the serializer's BodyLength(9) and CheckSum(10)
values inserted. -/
def parsedOf (m : Msg) : Msg where
  msgType := m.msgType
  fields := insertSorted
    (insertSorted m.fields 9 (padZeros 4 (7 + (bodyOf m).length))) 10
    (padZeros 3 (checksumOf m))

theorem parse_frameOf (m : Msg) (ts : ByteStr)
    (hks : KeysSorted m.fields)
    (h8 : m.getField 8 = some (ascii "FIX.4.2"))
    (h35 : m.getField 35 = some m.msgType)
    (h34 : (m.getField 34).isSome) (h49 : (m.getField 49).isSome)
    (h52 : (m.getField 52).isSome) (h56 : (m.getField 56).isSome)
    (hfields : ∀ p ∈ m.fields, 0 ≤ p.1 ∧ p.1 ≤ 2147483647 ∧
      SOH ∉ p.2 ∧ (61 : Nat) ∉ p.2)
    (hmt1 : SOH ∉ m.msgType) (hmt2 : (61 : Nat) ∉ m.msgType)
    (h268 : ∀ v, m.getField 268 = some v →
      parseI32 v = some (if (m.getField 269).isSome then 1 else 0)) :
    MessageParser.parse ts (frameOf m) = .ok (parsedOf m) := by
  simp only [Msg.getField] at h8 h35 h34 h49 h52 h56 h268
  have hvS : ∀ p ∈ m.fields, SOH ∉ p.2 := fun p hp => (hfields p hp).2.2.1
  have hsplitF := splitSOH_frameOf m hmt1 hvS
  have hfsSorted :
      KeysSorted (m.fields.filter fun p => p.1 ≠ 8 ∧ p.1 ≠ 9 ∧ p.1 ≠ 10) :=
    List.Pairwise.filter _ hks
  have hfsFP : ∀ p ∈ (m.fields.filter fun p =>
      p.1 ≠ 8 ∧ p.1 ≠ 9 ∧ p.1 ≠ 10),
      0 ≤ p.1 ∧ p.1 ≤ 2147483647 ∧ (61 : Nat) ∉ p.2 ∧ p.1 ≠ 8 ∧
        (p.1 = 35 → p.2 = m.msgType) := by
    intro p hp
    have hm := List.mem_of_mem_filter hp
    have hpred : p.1 ≠ 8 ∧ p.1 ≠ 9 ∧ p.1 ≠ 10 := by
      simpa using List.of_mem_filter hp
    obtain ⟨hr1, hr2, -, hr4⟩ := hfields p hm
    refine ⟨hr1, hr2, hr4, hpred.1, ?_⟩
    intro h35p
    have hlk : lookupSorted m.fields p.1 = some p.2 :=
      mem_lookup_of_sorted hks (by rwa [Prod.mk.eta])
    rw [h35p, h35] at hlk
    injection hlk with hlk'
    exact hlk'.symm
  have hfsSP : ∀ p ∈ (m.fields.filter fun p =>
      p.1 ≠ 8 ∧ p.1 ≠ 9 ∧ p.1 ≠ 10),
      0 ≤ p.1 ∧ p.1 ≤ 2147483647 ∧ (61 : Nat) ∉ p.2 := by
    intro p hp
    obtain ⟨hr1, hr2, hr3, -, -⟩ := hfsFP p hp
    exact ⟨hr1, hr2, hr3⟩
  have hpad4ne61 : (61 : Nat) ∉ padZeros 4 (7 + (bodyOf m).length) := by
    intro hmem
    have := padZeros_digits _ hmem
    omega
  have hpad3ne61 : (61 : Nat) ∉ padZeros 3 (checksumOf m) := by
    intro hmem
    have := padZeros_digits _ hmem
    omega
  have hc2eq : ascii "9=" ++ padZeros 4 (7 + (bodyOf m).length) =
      [57] ++ 61 :: padZeros 4 (7 + (bodyOf m).length) := by
    rw [show ascii "9=" = [57, 61] by decide]
    simp
  have hc2ne : ¬ ascii "9=" ++ padZeros 4 (7 + (bodyOf m).length) = [] := by
    rw [hc2eq]; simp
  have hc2split : splitByte 61
      (ascii "9=" ++ padZeros 4 (7 + (bodyOf m).length)) =
      [[57], padZeros 4 (7 + (bodyOf m).length)] := by
    rw [hc2eq]
    exact splitByte_pair (by decide) hpad4ne61
  have hc3eq : ascii "35=" ++ m.msgType = [51, 53] ++ 61 :: m.msgType := by
    rw [show ascii "35=" = [51, 53, 61] by decide]
    simp
  have hc3ne : ¬ ascii "35=" ++ m.msgType = [] := by
    rw [hc3eq]; simp
  have hc3split : splitByte 61 (ascii "35=" ++ m.msgType) =
      [[51, 53], m.msgType] := by
    rw [hc3eq]
    exact splitByte_pair (by decide) hmt2
  have hc4eq : ascii "10=" ++ padZeros 3 (checksumOf m) =
      [49, 48] ++ 61 :: padZeros 3 (checksumOf m) := by
    rw [show ascii "10=" = [49, 48, 61] by decide]
    simp
  have hc4ne : ¬ ascii "10=" ++ padZeros 3 (checksumOf m) = [] := by
    rw [hc4eq]; simp
  have hc4split : splitByte 61 (ascii "10=" ++ padZeros 3 (checksumOf m)) =
      [[49, 48], padZeros 3 (checksumOf m)] := by
    rw [hc4eq]
    exact splitByte_pair (by decide) hpad3ne61
  have hc1split : splitByte 61 (ascii "8=FIX.4.2") =
      [ascii "8", ascii "FIX.4.2"] := by decide
  have hc1ne : ¬ ascii "8=FIX.4.2" = [] := by decide
  have hp8 : parseI32 (ascii "8") = some 8 := by decide
  have hp9 : parseI32 [57] = some (9 : Int) := by decide
  have hp35 : parseI32 [51, 53] = some 35 := by decide
  have hp10 : parseI32 [49, 48] = some (10 : Int) := by decide
  have hfp : firstPass
      ([ascii "8=FIX.4.2", ascii "9=" ++ padZeros 4 (7 + (bodyOf m).length),
        ascii "35=" ++ m.msgType] ++
      ((m.fields.filter fun p => p.1 ≠ 8 ∧ p.1 ≠ 9 ∧ p.1 ≠ 10).map fun p =>
        intToBytes p.1 ++ 61 :: p.2) ++
      [ascii "10=" ++ padZeros 3 (checksumOf m), []]) none none =
      .ok (some (ascii "FIX.4.2"), some m.msgType) := by
    simp only [List.append_assoc, List.cons_append, List.nil_append]
    rw [firstPass_cons_tag8 hc1ne hc1split hp8]
    rw [firstPass_cons_tagOther hc2ne hc2split hp9 (by decide) (by decide)]
    rw [firstPass_cons_tag35 hc3ne hc3split hp35]
    rw [firstPass_fields hfsFP]
    rw [firstPass_cons_tagOther hc4ne hc4split hp10 (by decide) (by decide)]
    rw [firstPass_cons_empty, firstPass_nil]
  have hsp : secondPass
      ([ascii "8=FIX.4.2", ascii "9=" ++ padZeros 4 (7 + (bodyOf m).length),
        ascii "35=" ++ m.msgType] ++
      ((m.fields.filter fun p => p.1 ≠ 8 ∧ p.1 ≠ 9 ∧ p.1 ≠ 10).map fun p =>
        intToBytes p.1 ++ 61 :: p.2) ++
      [ascii "10=" ++ padZeros 3 (checksumOf m), []])
      (Message.new m.msgType ts) none 0 =
      .ok ((((m.fields.filter fun p =>
          p.1 ≠ 8 ∧ p.1 ≠ 9 ∧ p.1 ≠ 10).foldl
            (fun acc p => acc.setField p.1 p.2)
            ((((Message.new m.msgType ts).setField 8
              (ascii "FIX.4.2")).setField 9
              (padZeros 4 (7 + (bodyOf m).length))).setField 35
              m.msgType)).setField 10 (padZeros 3 (checksumOf m))),
        (m.fields.filter fun p => p.1 ≠ 8 ∧ p.1 ≠ 9 ∧ p.1 ≠ 10).foldl
          (fun e p => if p.1 = 268 then parseI32 p.2 else e) none,
        (m.fields.filter fun p => p.1 ≠ 8 ∧ p.1 ≠ 9 ∧ p.1 ≠ 10).foldl
          (fun c p => if p.1 = 269 then c + 1 else c) 0) := by
    simp only [List.append_assoc, List.cons_append, List.nil_append]
    rw [secondPass_cons_tag_other hc1ne hc1split hp8 (by decide) (by decide)]
    rw [secondPass_cons_tag_other hc2ne hc2split hp9 (by decide) (by decide)]
    rw [secondPass_cons_tag_other hc3ne hc3split hp35 (by decide)
      (by decide)]
    rw [secondPass_fields hfsSP]
    rw [secondPass_cons_tag_other hc4ne hc4split hp10 (by decide)
      (by decide)]
    rw [secondPass_cons_empty, secondPass_nil]
  rw [MessageParser.parse.eq_def]
  simp only [hsplitF, hfp, hsp]
  have hflt268 : lookupSorted (m.fields.filter fun p =>
      p.1 ≠ 8 ∧ p.1 ≠ 9 ∧ p.1 ≠ 10) 268 = lookupSorted m.fields 268 := by
    rw [lookup_filter_8910]
    norm_num
  have hflt269 : lookupSorted (m.fields.filter fun p =>
      p.1 ≠ 8 ∧ p.1 ≠ 9 ∧ p.1 ≠ 10) 269 = lookupSorted m.fields 269 := by
    rw [lookup_filter_8910]
    norm_num
  rw [foldl_track_of_unique hfsSorted, foldl_count_of_unique hfsSorted,
    hflt268, hflt269]
  have hMsg : (((m.fields.filter fun p =>
      p.1 ≠ 8 ∧ p.1 ≠ 9 ∧ p.1 ≠ 10).foldl
        (fun acc p => acc.setField p.1 p.2)
        ((((Message.new m.msgType ts).setField 8
          (ascii "FIX.4.2")).setField 9
          (padZeros 4 (7 + (bodyOf m).length))).setField 35
          m.msgType)).setField 10 (padZeros 3 (checksumOf m))) =
      parsedOf m := by
    have hbaseSorted : KeysSorted ((((Message.new m.msgType ts).setField 8
        (ascii "FIX.4.2")).setField 9
        (padZeros 4 (7 + (bodyOf m).length))).setField 35
        m.msgType).fields := by
      simp only [setField_fields, Message.new]
      repeat apply keysSorted_insertSorted
      exact List.Pairwise.nil
    have hL : KeysSorted (((m.fields.filter fun p =>
        p.1 ≠ 8 ∧ p.1 ≠ 9 ∧ p.1 ≠ 10).foldl
          (fun acc p => acc.setField p.1 p.2)
          ((((Message.new m.msgType ts).setField 8
            (ascii "FIX.4.2")).setField 9
            (padZeros 4 (7 + (bodyOf m).length))).setField 35
            m.msgType)).setField 10 (padZeros 3 (checksumOf m))).fields := by
      rw [setField_fields, foldMsg_fields]
      apply keysSorted_insertSorted
      exact foldl_setField_sorted hbaseSorted
    have hR : KeysSorted (parsedOf m).fields := by
      simp only [parsedOf]
      exact keysSorted_insertSorted (keysSorted_insertSorted hks _ _) _ _
    have hlook : ∀ k, lookupSorted (((m.fields.filter fun p =>
        p.1 ≠ 8 ∧ p.1 ≠ 9 ∧ p.1 ≠ 10).foldl
          (fun acc p => acc.setField p.1 p.2)
          ((((Message.new m.msgType ts).setField 8
            (ascii "FIX.4.2")).setField 9
            (padZeros 4 (7 + (bodyOf m).length))).setField 35
            m.msgType)).setField 10 (padZeros 3 (checksumOf m))).fields k =
        lookupSorted (parsedOf m).fields k := by
      intro k
      simp only [setField_fields, foldMsg_fields, parsedOf]
      rw [lookup_insertSorted, lookup_insertSorted, lookup_insertSorted]
      by_cases h10k : (10 : Int) = k
      · simp [h10k]
      rw [if_neg h10k, if_neg h10k]
      rw [foldl_setField_lookup hfsSorted]
      rw [lookup_filter_8910]
      by_cases h9k : (9 : Int) = k
      · subst h9k
        norm_num
        simp only [setField_fields, Message.new]
        rw [lookup_insertSorted, lookup_insertSorted]
        norm_num
      rw [if_neg h9k]
      by_cases h8k : (8 : Int) = k
      · subst h8k
        norm_num
        simp only [setField_fields, Message.new]
        rw [lookup_insertSorted, lookup_insertSorted, lookup_insertSorted]
        norm_num
        rw [h8]
      · rw [if_pos ⟨fun h' => h8k h'.symm, fun h' => h9k h'.symm,
          fun h' => h10k h'.symm⟩]
        rcases hl : lookupSorted m.fields k with - | v
        · simp only []
          simp only [setField_fields, Message.new]
          rw [lookup_insertSorted, lookup_insertSorted, lookup_insertSorted,
            lookup_insertSorted, lookup_insertSorted, lookup_insertSorted,
            lookup_insertSorted, lookup_insertSorted, lookup_insertSorted]
          by_cases h35k : (35 : Int) = k
          · rw [← h35k] at hl
            rw [h35] at hl
            cases hl
          by_cases h34k : (34 : Int) = k
          · rw [← h34k] at hl
            rw [hl] at h34
            simp at h34
          by_cases h49k : (49 : Int) = k
          · rw [← h49k] at hl
            rw [hl] at h49
            simp at h49
          by_cases h52k : (52 : Int) = k
          · rw [← h52k] at hl
            rw [hl] at h52
            simp at h52
          by_cases h56k : (56 : Int) = k
          · rw [← h56k] at hl
            rw [hl] at h56
            simp at h56
          simp [h35k, h34k, h49k, h52k, h56k, h8k, h9k, lookupSorted]
        · simp only []
    have hfe := sortedAssoc_ext hL hR hlook
    have hme : (((m.fields.filter fun p =>
        p.1 ≠ 8 ∧ p.1 ≠ 9 ∧ p.1 ≠ 10).foldl
          (fun acc p => acc.setField p.1 p.2)
          ((((Message.new m.msgType ts).setField 8
            (ascii "FIX.4.2")).setField 9
            (padZeros 4 (7 + (bodyOf m).length))).setField 35
            m.msgType)).setField 10
            (padZeros 3 (checksumOf m))).msgType = (parsedOf m).msgType := by
      simp only [setField_msgType, foldMsg_msgType, parsedOf, Message.new]
    have hext : ∀ (x y : Msg), x.msgType = y.msgType → x.fields = y.fields →
        x = y := by
      intro x y hxy1 hxy2
      cases x; cases y
      simp only at hxy1 hxy2
      simp [hxy1, hxy2]
    exact hext _ _ hme hfe
  rcases hx : lookupSorted m.fields 268 with - | v
  · rw [hMsg]
  · rw [hMsg]
    have hred : (match some v with
        | some w => parseI32 w
        | none => none) = parseI32 v := rfl
    rw [hred, h268 v hx]
    dsimp only
    by_cases h269s : (lookupSorted m.fields 269).isSome = true
    · simp [h269s]
    · simp [h269s]

/-! ## Claims -/

/-- Claim C3: for every frame produced by Message::to_string, the decimal
value of the BodyLength(9) field is claimed to equal the number of bytes
from the first byte after the SOH terminating the 9= field through the
last byte before the 10= tag.  Evaluating the embedded serializer on a
Heartbeat shows the emitted value is 63 while that byte count is 56: the
code includes the 7 bytes of the 9=0000<SOH> placeholder itself. -/
theorem C3_bodyLength_includes_placeholder :
    Message.toString (Message.new (ascii "0") (ascii "20250124-12:00:00")) =
      .ok (ascii "8=FIX.4.2\x01" ++ ascii "9=0063\x01" ++
        ascii "35=0\x0134=1\x0135=0\x0149=SENDER\x0152=20250124-12:00:00\x0156=TARGET\x01" ++
        ascii "10=" ++ padZeros 3 (calculate_checksum
          (ascii "8=FIX.4.2\x019=0063\x0135=0\x0134=1\x0135=0\x0149=SENDER\x0152=20250124-12:00:00\x0156=TARGET\x01")) ++
        [SOH]) ∧
    parseDigits (ascii "0063") = some 63 ∧
    (ascii "35=0\x0134=1\x0135=0\x0149=SENDER\x0152=20250124-12:00:00\x0156=TARGET\x01").length
      = 56 ∧
    (63 : Nat) ≠ 56 := by
  decide

/-- Claim C6: the spec claims shouldDisconnect() is false at t = 0 for a
freshly Connected session.  In the code, start_message_processor never
calls update_receive_time, so last_receive_time keeps its initial value 0;
immediately after the peer's Logon is processed (status Connected,
counter 0) at wall-clock 100 with heartbeat_interval 30,
should_disconnect returns true (100 − 0 > 2·30). -/
theorem C6_fresh_connected_disconnects :
    ((Session.process_message
        (((SessionState.with_config 10 30 2).set_status
          .InitiateLogon).update_send_time 50)
        (((Message.new (ascii "A") (ascii "TS")).setField 98
          (ascii "0")).setField 108 (ascii "30"))
        (ascii "TS")).state.status = Status.Connected) ∧
    ((Session.process_message
        (((SessionState.with_config 10 30 2).set_status
          .InitiateLogon).update_send_time 50)
        (((Message.new (ascii "A") (ascii "TS")).setField 98
          (ascii "0")).setField 108 (ascii "30"))
        (ascii "TS")).state.last_receive_time = 0) ∧
    ((Session.process_message
        (((SessionState.with_config 10 30 2).set_status
          .InitiateLogon).update_send_time 50)
        (((Message.new (ascii "A") (ascii "TS")).setField 98
          (ascii "0")).setField 108 (ascii "30"))
        (ascii "TS")).state.should_disconnect 100 = true) := by
  decide

/-- The session state used in the C4 counterexample: Connected, expecting
sequence number 5. -/
def c4State : SessionState where
  status := .Connected
  next_outgoing_seq := 1
  next_incoming_seq := 5
  expected_target_seq_num := 1
  last_send_time := 0
  last_receive_time := 0
  test_request_counter := 0
  logon_timeout := 10
  heartbeat_interval := 30
  test_request_delay := 2

/-- The inbound message of the C4 counterexample: a Heartbeat with
MsgSeqNum 3 (below the expected 5) and no PossDupFlag(43). -/
def c4Msg : Msg := (Message.new (ascii "0") (ascii "TS")).setField 34
  (ascii "3")

/-- Claim C4 counterexample: an inbound message with MsgSeqNum 3 < 5 and
no PossDupFlag does *not* drive the session to Error with the counter
unchanged — the code stores it and increments next_incoming_seq to 6,
leaving the status Connected. -/
theorem C4_counterexample :
    c4Msg.getField 43 = none ∧
    (Session.process_message c4State c4Msg (ascii "TS")).state.status =
      Status.Connected ∧
    (Session.process_message c4State c4Msg
      (ascii "TS")).state.next_incoming_seq = 6 ∧
    (Session.process_message c4State c4Msg (ascii "TS")).stored =
      [(3, c4Msg)] := by
  decide

theorem dispatchMessage_status {st : SessionState} {msg : Msg}
    {poolTs : ByteStr} (h : st.status ≠ .Error) :
    (dispatchMessage st msg poolTs).1.status ≠ .Error := by
  unfold dispatchMessage
  split
  · split
    · simp [SessionState.set_status, SessionState.reset_test_request_counter]
    · exact h
  · split
    · split
      · exact h
      · exact h
    · split
      · simpa [SessionState.reset_test_request_counter] using h
      · split
        · simp [SessionState.set_status]
        · exact h

theorem dispatchMessage_seq {st : SessionState} {msg : Msg}
    {poolTs : ByteStr} :
    (dispatchMessage st msg poolTs).1.next_incoming_seq =
      st.next_incoming_seq := by
  unfold dispatchMessage
  split
  · split <;> rfl
  · split
    · split <;> rfl
    · split
      · rfl
      · split <;> rfl

/-- Claim C4 (amended): for every inbound message whose MsgSeqNum s is
strictly below next_incoming_seq — regardless of PossDupFlag — the
processor stores the message and increments next_incoming_seq by one,
and never transitions the session to Error. -/
theorem C4_low_seq_accepted (st : SessionState) (msg : Msg)
    (ts sv : ByteStr) (s : Int)
    (hstatus : st.status ≠ .Error)
    (h34 : msg.getField 34 = some sv) (hs : parseI32 sv = some s)
    (hlow : s < st.next_incoming_seq) :
    (Session.process_message st msg ts).state.next_incoming_seq =
      st.next_incoming_seq + 1 ∧
    (Session.process_message st msg ts).stored = [(s, msg)] ∧
    (Session.process_message st msg ts).state.status ≠ .Error := by
  unfold Session.process_message
  rw [h34]
  dsimp only
  rw [hs]
  dsimp only
  rw [if_neg (by omega)]
  refine ⟨?_, rfl, ?_⟩
  · rw [dispatchMessage_seq]
    rfl
  · exact dispatchMessage_status (by
      simpa [SessionState.increment_incoming_seq] using hstatus)

/-- Witness for C4_low_seq_accepted at the counterexample state. -/
theorem C4_low_seq_accepted_witness :
    (Session.process_message c4State c4Msg
      (ascii "TS")).state.next_incoming_seq = 6 ∧
    (Session.process_message c4State c4Msg (ascii "TS")).stored =
      [(3, c4Msg)] ∧
    (Session.process_message c4State c4Msg (ascii "TS")).state.status ≠
      .Error := by
  have h := C4_low_seq_accepted c4State c4Msg (ascii "TS") (ascii "3") 3
    (by decide) (by decide) (by decide) (by decide)
  exact ⟨h.1, h.2.1, h.2.2⟩

/-- Claim C5: for every inbound message whose MsgSeqNum s exceeds
next_incoming_seq e, the processor sends exactly one ResendRequest(2)
with BeginSeqNo(7) = e and EndSeqNo(16) = s, stores nothing, and leaves
the whole session state (in particular next_incoming_seq) unchanged. -/
theorem C5_gap_sends_resend_request (st : SessionState) (msg : Msg)
    (ts sv : ByteStr) (s : Int)
    (h34 : msg.getField 34 = some sv) (hs : parseI32 sv = some s)
    (hgap : s > st.next_incoming_seq) :
    ∃ rr, (Session.process_message st msg ts).sent = [rr] ∧
      rr.msgType = ascii "2" ∧
      rr.getField 7 = some (intToBytes st.next_incoming_seq) ∧
      rr.getField 16 = some (intToBytes s) ∧
      (Session.process_message st msg ts).stored = [] ∧
      (Session.process_message st msg ts).state = st := by
  unfold Session.process_message
  rw [h34]
  dsimp only
  rw [hs]
  dsimp only
  rw [if_pos hgap]
  refine ⟨_, rfl, rfl, ?_, ?_, rfl, rfl⟩
  · simp [Msg.getField, setField_fields, lookup_insertSorted]
  · simp [Msg.getField, setField_fields, lookup_insertSorted]

/-- Witness for C5_gap_sends_resend_request: expected 5, received 7. -/
theorem C5_gap_sends_resend_request_witness :
    ∃ rr, (Session.process_message
        { c4State with next_incoming_seq := 5 }
        ((Message.new (ascii "0") (ascii "TS")).setField 34 (ascii "7"))
        (ascii "TS")).sent = [rr] ∧
      rr.msgType = ascii "2" ∧
      rr.getField 7 = some (intToBytes 5) ∧
      rr.getField 16 = some (intToBytes 7) ∧
      (Session.process_message { c4State with next_incoming_seq := 5 }
        ((Message.new (ascii "0") (ascii "TS")).setField 34 (ascii "7"))
        (ascii "TS")).stored = [] ∧
      (Session.process_message { c4State with next_incoming_seq := 5 }
        ((Message.new (ascii "0") (ascii "TS")).setField 34 (ascii "7"))
        (ascii "TS")).state = { c4State with next_incoming_seq := 5 } :=
  C5_gap_sends_resend_request _ _ (ascii "TS") (ascii "7") 7 (by decide)
    (by decide) (by decide)

/-- The store of the C7 counterexample: a fresh store with one open
transaction holding one buffered message. -/
def c7Store : MessageStore :=
  ((MessageStore.new.begin_transaction).1.store_message 1
    (Message.new (ascii "0") (ascii "20250124-12:00:00")) true).1

/-- Claim C7 counterexample: when commit_transaction fails (the
persistence I/O errors), the transaction does *not* remain registered:
commit removed it up front, so a subsequent rollback_transaction reports
"no transaction in progress". -/
theorem C7_counterexample :
    (c7Store.txn).isSome = true ∧
    (c7Store.commit_transaction false).2 = .error () ∧
    (c7Store.commit_transaction false).1.txn = none ∧
    ((c7Store.commit_transaction false).1.rollback_transaction).2 =
      .error () := by
  decide

/-- Claim C7 (amended): commit_transaction removes the session's
transaction from the store before attempting persistence, so after any
commit — failed or not — no transaction remains registered, and a failed
commit leaves a store on which rollback_transaction errors. -/
theorem C7_commit_discards_transaction (st : MessageStore) (ioOk : Bool)
    (h : st.txn.isSome) :
    (st.commit_transaction ioOk).1.txn = none ∧
    ((st.commit_transaction ioOk).2 = .error () →
      ((st.commit_transaction ioOk).1.rollback_transaction).2 =
        .error ()) := by
  rcases hx : st.txn with - | t
  · rw [hx] at h; simp at h
  · unfold MessageStore.commit_transaction
    rw [hx]
    dsimp only
    constructor
    · split
      · rfl
      · split
        · rfl
        · split
          · rfl
          · rfl
    · intro hcommit
      split
      · simp [MessageStore.rollback_transaction]
      · split
        · simp [MessageStore.rollback_transaction]
        · split
          · simp [MessageStore.rollback_transaction]
          · simp [MessageStore.rollback_transaction]

/-- Witness for C7_commit_discards_transaction at the counterexample
store with failing I/O. -/
theorem C7_commit_discards_transaction_witness :
    (c7Store.commit_transaction false).1.txn = none ∧
    ((c7Store.commit_transaction false).2 = .error () →
      ((c7Store.commit_transaction false).1.rollback_transaction).2 =
        .error ()) :=
  C7_commit_discards_transaction c7Store false (by decide)

/-- Claim C2 (amended): parsing the serialization of a canonical
well-formed message M yields M's MsgType and exactly M's (tag, value)
pairs *plus* the BodyLength(9) and CheckSum(10) fields the serializer
computed — the parser stores every frame field, including tags 9 and 10,
so the round-trip is the identity only away from those two tags (and
requires any NoMDEntries(268) count to match the number of
MDEntryType(269) fields, else the parse fails). -/
theorem C2_roundtrip (m : Msg) (ts : ByteStr)
    (hks : KeysSorted m.fields)
    (h8 : m.getField 8 = some (ascii "FIX.4.2"))
    (h35 : m.getField 35 = some m.msgType)
    (h34 : (m.getField 34).isSome) (h49 : (m.getField 49).isSome)
    (h52 : (m.getField 52).isSome) (h56 : (m.getField 56).isSome)
    (hfields : ∀ p ∈ m.fields, 0 ≤ p.1 ∧ p.1 ≤ 2147483647 ∧
      SOH ∉ p.2 ∧ (61 : Nat) ∉ p.2)
    (hmt1 : SOH ∉ m.msgType) (hmt2 : (61 : Nat) ∉ m.msgType)
    (hocc : findSub (ascii "9=0000" ++ [SOH]) (bodyOf m) = none)
    (h268 : ∀ v, m.getField 268 = some v →
      parseI32 v = some (if (m.getField 269).isSome then 1 else 0)) :
    Message.toString m = .ok (frameOf m) ∧
    MessageParser.parse ts (frameOf m) = .ok (parsedOf m) ∧
    (parsedOf m).msgType = m.msgType ∧
    (∀ t, t ≠ 9 → t ≠ 10 → (parsedOf m).getField t = m.getField t) ∧
    (parsedOf m).getField 9 =
      some (padZeros 4 (7 + (bodyOf m).length)) ∧
    (parsedOf m).getField 10 = some (padZeros 3 (checksumOf m)) := by
  refine ⟨toString_explicit m hks h8 hocc,
    parse_frameOf m ts hks h8 h35 h34 h49 h52 h56 hfields hmt1 hmt2 h268,
    rfl, ?_, ?_, ?_⟩
  · intro t h9 h10
    simp only [parsedOf, Msg.getField, lookup_insertSorted]
    rw [if_neg (fun h' => h10 h'.symm), if_neg (fun h' => h9 h'.symm)]
  · simp only [parsedOf, Msg.getField, lookup_insertSorted]
    norm_num
  · simp only [parsedOf, Msg.getField, lookup_insertSorted]
    norm_num

/-- Witness for C2_roundtrip at a concrete Heartbeat message. -/
theorem C2_roundtrip_witness :
    Message.toString (Message.new (ascii "0") (ascii "20250124-12:00:00")) =
      .ok (frameOf (Message.new (ascii "0") (ascii "20250124-12:00:00"))) ∧
    MessageParser.parse (ascii "TS")
      (frameOf (Message.new (ascii "0") (ascii "20250124-12:00:00"))) =
      .ok (parsedOf (Message.new (ascii "0") (ascii "20250124-12:00:00"))) ∧
    (parsedOf (Message.new (ascii "0")
      (ascii "20250124-12:00:00"))).msgType = ascii "0" ∧
    (∀ t, t ≠ 9 → t ≠ 10 →
      (parsedOf (Message.new (ascii "0")
        (ascii "20250124-12:00:00"))).getField t =
      (Message.new (ascii "0") (ascii "20250124-12:00:00")).getField t) ∧
    (parsedOf (Message.new (ascii "0")
      (ascii "20250124-12:00:00"))).getField 9 =
      some (padZeros 4
        (7 + (bodyOf (Message.new (ascii "0")
          (ascii "20250124-12:00:00"))).length)) ∧
    (parsedOf (Message.new (ascii "0")
      (ascii "20250124-12:00:00"))).getField 10 =
      some (padZeros 3
        (checksumOf (Message.new (ascii "0")
          (ascii "20250124-12:00:00")))) := by
  have h := C2_roundtrip (Message.new (ascii "0")
      (ascii "20250124-12:00:00")) (ascii "TS")
    (by decide) (by decide) (by decide) (by decide) (by decide) (by decide)
    (by decide) (by decide) (by decide) (by decide) (by decide)
    (by
      intro v hv
      rw [show (Message.new (ascii "0")
        (ascii "20250124-12:00:00")).getField 268 = none by decide] at hv
      cases hv)
  exact h

/-- Claim C2 counterexample: for the Heartbeat built by Message::new,
parsing the serialization does not return the original message — the
parsed message carries a BodyLength(9) field (value 0063) that the
original does not have. -/
theorem C2_counterexample :
    Message.toString (Message.new (ascii "0") (ascii "20250124-12:00:00")) =
      .ok (ascii "8=FIX.4.2\x019=0063\x0135=0\x0134=1\x0135=0\x0149=SENDER\x0152=20250124-12:00:00\x0156=TARGET\x0110=182\x01") ∧
    (MessageParser.parse (ascii "TS")
      (ascii "8=FIX.4.2\x019=0063\x0135=0\x0134=1\x0135=0\x0149=SENDER\x0152=20250124-12:00:00\x0156=TARGET\x0110=182\x01")).toOption ≠
      some (Message.new (ascii "0") (ascii "20250124-12:00:00")) ∧
    ((MessageParser.parse (ascii "TS")
      (ascii "8=FIX.4.2\x019=0063\x0135=0\x0134=1\x0135=0\x0149=SENDER\x0152=20250124-12:00:00\x0156=TARGET\x0110=182\x01")).toOption.map
      fun mm => mm.getField 9) = some (some (ascii "0063")) ∧
    (Message.new (ascii "0") (ascii "20250124-12:00:00")).getField 9 =
      none := by
  decide

/-- The concrete header of the C1 test frame, up to and including the SOH
that precedes the `10=` tag. -/
def c1Head : ByteStr :=
  ascii "8=FIX.4.2\x019=73\x0135=A\x0149=SENDER\x0156=TARGET\x0134=1\x0152=20210713-12:00:00\x01"

/-- The C1 test frame carrying an arbitrary CheckSum(10) value `ck`. -/
def c1Frame (ck : ByteStr) : ByteStr := c1Head ++ ascii "10=" ++ ck ++ [SOH]

/-- Claim C1 (amended): MessageParser::parse performs no checksum
verification at all — for EVERY all-digit CheckSum(10) value `ck`,
parsing the fixed Logon frame whose transmitted checksum is `ck`
succeeds, and the parsed message simply stores `ck` as field 10. -/
theorem C1_no_checksum_verification (ck : ByteStr)
    (hck : ∀ b ∈ ck, 48 ≤ b ∧ b ≤ 57) :
    MessageParser.parse (ascii "TS") (c1Frame ck) =
      .ok { msgType := ascii "A"
            fields := [(8, ascii "FIX.4.2"), (9, ascii "73"), (10, ck),
              (34, ascii "1"), (35, ascii "A"), (49, ascii "SENDER"),
              (52, ascii "20210713-12:00:00"), (56, ascii "TARGET")] } := by
  have h61 : (61 : Nat) ∉ ck := by
    intro h
    have h1 : (48 : Nat) ≤ 61 := (hck _ h).1
    have h2 : (61 : Nat) ≤ 57 := (hck _ h).2
    omega
  have hSOHck : SOH ∉ ck := by
    intro h
    have h1 : (48 : Nat) ≤ 1 := (hck _ h).1
    omega
  have hshape : c1Frame ck =
      ascii "8=FIX.4.2" ++ SOH :: (ascii "9=73" ++ SOH ::
      (ascii "35=A" ++ SOH :: (ascii "49=SENDER" ++ SOH ::
      (ascii "56=TARGET" ++ SOH :: (ascii "34=1" ++ SOH ::
      (ascii "52=20210713-12:00:00" ++ SOH ::
      ((ascii "10=" ++ ck) ++ SOH :: ([] : ByteStr)))))))) := by
    simp only [c1Frame, c1Head, List.append_assoc]
    rfl
  have h10SOH : SOH ∉ ascii "10=" ++ ck := by
    intro h
    rcases List.mem_append.mp h with h | h
    · exact absurd h (by decide)
    · exact hSOHck h
  have hsplit : splitByte SOH (c1Frame ck) =
      [ascii "8=FIX.4.2", ascii "9=73", ascii "35=A", ascii "49=SENDER",
       ascii "56=TARGET", ascii "34=1", ascii "52=20210713-12:00:00",
       ascii "10=" ++ ck, []] := by
    rw [hshape]
    rw [splitByte_append_sep (by decide), splitByte_append_sep (by decide),
      splitByte_append_sep (by decide), splitByte_append_sep (by decide),
      splitByte_append_sep (by decide), splitByte_append_sep (by decide),
      splitByte_append_sep (by decide), splitByte_append_sep h10SOH]
    rfl
  have hs1 : splitByte 61 (ascii "8=FIX.4.2") =
      [ascii "8", ascii "FIX.4.2"] := by decide
  have hs2 : splitByte 61 (ascii "9=73") = [ascii "9", ascii "73"] := by
    decide
  have hs3 : splitByte 61 (ascii "35=A") = [ascii "35", ascii "A"] := by
    decide
  have hs4 : splitByte 61 (ascii "49=SENDER") =
      [ascii "49", ascii "SENDER"] := by decide
  have hs5 : splitByte 61 (ascii "56=TARGET") =
      [ascii "56", ascii "TARGET"] := by decide
  have hs6 : splitByte 61 (ascii "34=1") = [ascii "34", ascii "1"] := by
    decide
  have hs7 : splitByte 61 (ascii "52=20210713-12:00:00") =
      [ascii "52", ascii "20210713-12:00:00"] := by decide
  have hs8 : splitByte 61 (ascii "10=" ++ ck) = [ascii "10", ck] := by
    rw [show ascii "10=" ++ ck = ascii "10" ++ 61 :: ck from rfl]
    exact splitByte_pair (by decide) h61
  have h8ne : ¬ ascii "10=" ++ ck = [] := by
    intro h
    rw [List.append_eq_nil] at h
    exact absurd h.1 (by decide)
  have hp8 : parseI32 (ascii "8") = some 8 := by decide
  have hp9 : parseI32 (ascii "9") = some 9 := by decide
  have hp35 : parseI32 (ascii "35") = some 35 := by decide
  have hp49 : parseI32 (ascii "49") = some 49 := by decide
  have hp56 : parseI32 (ascii "56") = some 56 := by decide
  have hp34 : parseI32 (ascii "34") = some 34 := by decide
  have hp52 : parseI32 (ascii "52") = some 52 := by decide
  have hp10 : parseI32 (ascii "10") = some 10 := by decide
  have hfp : firstPass
      [ascii "8=FIX.4.2", ascii "9=73", ascii "35=A", ascii "49=SENDER",
       ascii "56=TARGET", ascii "34=1", ascii "52=20210713-12:00:00",
       ascii "10=" ++ ck, []] none none =
      .ok (some (ascii "FIX.4.2"), some (ascii "A")) := by
    rw [firstPass_cons_tag8 (by decide) hs1 hp8]
    rw [firstPass_cons_tagOther (by decide) hs2 hp9 (by decide) (by decide)]
    rw [firstPass_cons_tag35 (by decide) hs3 hp35]
    rw [firstPass_cons_tagOther (by decide) hs4 hp49 (by decide)
      (by decide)]
    rw [firstPass_cons_tagOther (by decide) hs5 hp56 (by decide)
      (by decide)]
    rw [firstPass_cons_tagOther (by decide) hs6 hp34 (by decide)
      (by decide)]
    rw [firstPass_cons_tagOther (by decide) hs7 hp52 (by decide)
      (by decide)]
    rw [firstPass_cons_tagOther h8ne hs8 hp10 (by decide) (by decide)]
    rw [firstPass_cons_empty, firstPass_nil]
  have hsp : secondPass
      [ascii "8=FIX.4.2", ascii "9=73", ascii "35=A", ascii "49=SENDER",
       ascii "56=TARGET", ascii "34=1", ascii "52=20210713-12:00:00",
       ascii "10=" ++ ck, []]
      (Message.new (ascii "A") (ascii "TS")) none 0 =
      .ok ((((((((((Message.new (ascii "A")
          (ascii "TS")).setField 8 (ascii "FIX.4.2")).setField 9
          (ascii "73")).setField 35 (ascii "A")).setField 49
          (ascii "SENDER")).setField 56 (ascii "TARGET")).setField 34
          (ascii "1")).setField 52
          (ascii "20210713-12:00:00")).setField 10 ck), none, 0) := by
    rw [secondPass_cons_tag_other (by decide) hs1 hp8 (by decide)
      (by decide)]
    rw [secondPass_cons_tag_other (by decide) hs2 hp9 (by decide)
      (by decide)]
    rw [secondPass_cons_tag_other (by decide) hs3 hp35 (by decide)
      (by decide)]
    rw [secondPass_cons_tag_other (by decide) hs4 hp49 (by decide)
      (by decide)]
    rw [secondPass_cons_tag_other (by decide) hs5 hp56 (by decide)
      (by decide)]
    rw [secondPass_cons_tag_other (by decide) hs6 hp34 (by decide)
      (by decide)]
    rw [secondPass_cons_tag_other (by decide) hs7 hp52 (by decide)
      (by decide)]
    rw [secondPass_cons_tag_other h8ne hs8 hp10 (by decide) (by decide)]
    rw [secondPass_cons_empty, secondPass_nil]
  rw [MessageParser.parse.eq_def]
  simp only [hsplit, hfp, hsp]
  rfl

/-- Witness for C1_no_checksum_verification at checksum value "000". -/
theorem C1_no_checksum_verification_witness :
    (∀ b ∈ ascii "000", 48 ≤ b ∧ b ≤ 57) ∧
    MessageParser.parse (ascii "TS") (c1Frame (ascii "000")) =
      .ok { msgType := ascii "A"
            fields := [(8, ascii "FIX.4.2"), (9, ascii "73"),
              (10, ascii "000"), (34, ascii "1"), (35, ascii "A"),
              (49, ascii "SENDER"), (52, ascii "20210713-12:00:00"),
              (56, ascii "TARGET")] } :=
  ⟨by decide, C1_no_checksum_verification (ascii "000") (by decide)⟩

/-- Claim C1 counterexample: the frame `c1Frame (ascii "000")` transmits
CheckSum(10) = "000", while the mod-256 sum recomputed over the frame's
bytes up to and including the SOH preceding `10=` is 146 ≠ 0; yet
MessageParser::parse accepts the frame. -/
theorem C1_counterexample :
    calculate_checksum c1Head = 146 ∧
    parseDigits (ascii "000") = some 0 ∧
    (146 : Nat) ≠ 0 ∧
    (MessageParser.parse (ascii "TS") (c1Frame (ascii "000"))).toOption.isSome = true := by
  decide

/-- A byte string is an infix of anything of the shape `X ++ (pat ++ Y)`. -/
theorem infix_of_decomp (X Y : ByteStr) {pat w : ByteStr}
    (h : w = X ++ (pat ++ Y)) : List.IsInfix pat w := by
  subst h
  exact ⟨X, Y, by simp [List.append_assoc]⟩

/-- Claim C10: Message::new(t) pre-populates BeginString(8)="FIX.4.2",
MsgType(35)=t, SendingTime(52)=construction timestamp,
SenderCompID(49)="SENDER", TargetCompID(56)="TARGET", MsgSeqNum(34)="1",
and (unless overwritten) the placeholder CompIDs, the sequence number 1
and the stamped SendingTime are all emitted on the wire by to_string. -/
theorem C10_default_headers (t ts : ByteStr)
    (hocc : findSub (ascii "9=0000" ++ [SOH])
      (bodyOf (Message.new t ts)) = none) :
    (Message.new t ts).getField 8 = some (ascii "FIX.4.2") ∧
    (Message.new t ts).getField 35 = some t ∧
    (Message.new t ts).getField 52 = some ts ∧
    (Message.new t ts).getField 49 = some (ascii "SENDER") ∧
    (Message.new t ts).getField 56 = some (ascii "TARGET") ∧
    (Message.new t ts).getField 34 = some (ascii "1") ∧
    ∃ f, Message.toString (Message.new t ts) = .ok f ∧
      List.IsInfix (ascii "49=SENDER" ++ [SOH]) f ∧
      List.IsInfix (ascii "56=TARGET" ++ [SOH]) f ∧
      List.IsInfix (ascii "34=1" ++ [SOH]) f ∧
      List.IsInfix (ascii "52=" ++ ts ++ [SOH]) f := by
  have hks : KeysSorted (Message.new t ts).fields := by
    simp only [Message.new]
    repeat
      first
      | exact List.Pairwise.nil
      | apply keysSorted_insertSorted
  have h8 : (Message.new t ts).getField 8 = some (ascii "FIX.4.2") := rfl
  have hb : bodyOf (Message.new t ts) =
      ascii "35=" ++ t ++ [SOH] ++
      ((intToBytes 34 ++ [61] ++ ascii "1" ++ [SOH]) ++
       ((intToBytes 35 ++ [61] ++ t ++ [SOH]) ++
        ((intToBytes 49 ++ [61] ++ ascii "SENDER" ++ [SOH]) ++
         ((intToBytes 52 ++ [61] ++ ts ++ [SOH]) ++
          ((intToBytes 56 ++ [61] ++ ascii "TARGET" ++ [SOH]) ++
            ([] : ByteStr)))))) := rfl
  have hbodyinf :
      List.IsInfix (bodyOf (Message.new t ts))
        (frameOf (Message.new t ts)) := by
    apply infix_of_decomp
      (ascii "8=FIX.4.2" ++ [SOH] ++ ascii "9=" ++
        padZeros 4 (7 + (bodyOf (Message.new t ts)).length) ++ [SOH])
      (ascii "10=" ++
        padZeros 3 (calculate_checksum (ascii "8=FIX.4.2" ++ [SOH] ++
          (ascii "9=" ++
            padZeros 4 (7 + (bodyOf (Message.new t ts)).length) ++ [SOH] ++
            bodyOf (Message.new t ts)))) ++ [SOH])
    simp only [frameOf]
    simp [List.append_assoc]
  refine ⟨h8, rfl, rfl, rfl, rfl, rfl, frameOf (Message.new t ts),
    toString_explicit _ hks h8 hocc, ?_, ?_, ?_, ?_⟩
  · refine List.IsInfix.trans ?_ hbodyinf
    apply infix_of_decomp
      (ascii "35=" ++ t ++ [SOH] ++
        (intToBytes 34 ++ [61] ++ ascii "1" ++ [SOH]) ++
        (intToBytes 35 ++ [61] ++ t ++ [SOH]))
      ((intToBytes 52 ++ [61] ++ ts ++ [SOH]) ++
        (intToBytes 56 ++ [61] ++ ascii "TARGET" ++ [SOH]))
    rw [hb]
    rw [show (ascii "49=SENDER" : ByteStr) =
      intToBytes 49 ++ [61] ++ ascii "SENDER" from by decide]
    simp [List.append_assoc]
  · refine List.IsInfix.trans ?_ hbodyinf
    apply infix_of_decomp
      (ascii "35=" ++ t ++ [SOH] ++
        (intToBytes 34 ++ [61] ++ ascii "1" ++ [SOH]) ++
        (intToBytes 35 ++ [61] ++ t ++ [SOH]) ++
        (intToBytes 49 ++ [61] ++ ascii "SENDER" ++ [SOH]) ++
        (intToBytes 52 ++ [61] ++ ts ++ [SOH]))
      ([] : ByteStr)
    rw [hb]
    rw [show (ascii "56=TARGET" : ByteStr) =
      intToBytes 56 ++ [61] ++ ascii "TARGET" from by decide]
    simp [List.append_assoc]
  · refine List.IsInfix.trans ?_ hbodyinf
    apply infix_of_decomp (ascii "35=" ++ t ++ [SOH])
      ((intToBytes 35 ++ [61] ++ t ++ [SOH]) ++
        ((intToBytes 49 ++ [61] ++ ascii "SENDER" ++ [SOH]) ++
         ((intToBytes 52 ++ [61] ++ ts ++ [SOH]) ++
          (intToBytes 56 ++ [61] ++ ascii "TARGET" ++ [SOH]))))
    rw [hb]
    rw [show (ascii "34=1" : ByteStr) =
      intToBytes 34 ++ [61] ++ ascii "1" from by decide]
    simp [List.append_assoc]
  · refine List.IsInfix.trans ?_ hbodyinf
    apply infix_of_decomp
      (ascii "35=" ++ t ++ [SOH] ++
        (intToBytes 34 ++ [61] ++ ascii "1" ++ [SOH]) ++
        (intToBytes 35 ++ [61] ++ t ++ [SOH]) ++
        (intToBytes 49 ++ [61] ++ ascii "SENDER" ++ [SOH]))
      (intToBytes 56 ++ [61] ++ ascii "TARGET" ++ [SOH])
    rw [hb]
    rw [show (ascii "52=" : ByteStr) = intToBytes 52 ++ [61] from by decide]
    simp [List.append_assoc]

/-- Witness for C10_default_headers on a concrete ExecutionReport type. -/
theorem C10_default_headers_witness :
    (Message.new (ascii "8")
      (ascii "20250124-12:00:00")).getField 8 = some (ascii "FIX.4.2") ∧
    (Message.new (ascii "8")
      (ascii "20250124-12:00:00")).getField 35 = some (ascii "8") ∧
    (Message.new (ascii "8")
      (ascii "20250124-12:00:00")).getField 52 =
        some (ascii "20250124-12:00:00") ∧
    (Message.new (ascii "8")
      (ascii "20250124-12:00:00")).getField 49 = some (ascii "SENDER") ∧
    (Message.new (ascii "8")
      (ascii "20250124-12:00:00")).getField 56 = some (ascii "TARGET") ∧
    (Message.new (ascii "8")
      (ascii "20250124-12:00:00")).getField 34 = some (ascii "1") ∧
    ∃ f, Message.toString (Message.new (ascii "8")
        (ascii "20250124-12:00:00")) = .ok f ∧
      List.IsInfix (ascii "49=SENDER" ++ [SOH]) f ∧
      List.IsInfix (ascii "56=TARGET" ++ [SOH]) f ∧
      List.IsInfix (ascii "34=1" ++ [SOH]) f ∧
      List.IsInfix (ascii "52=" ++ ascii "20250124-12:00:00" ++ [SOH]) f :=
  C10_default_headers (ascii "8") (ascii "20250124-12:00:00") (by decide)

/-- A MarketDataRequest(V) carrying exactly the required header plus the
static-table fields {262, 263, 264, 268}, all with valid values — but no
Symbol(55). -/
def c9Msg : Msg where
  msgType := ascii "V"
  fields := [(8, ascii "FIX.4.2"), (34, ascii "1"), (35, ascii "V"),
    (49, ascii "SENDER"), (52, ascii "20250124-12:00:00"),
    (56, ascii "TARGET"), (262, ascii "REQ1"), (263, ascii "1"),
    (264, ascii "0"), (268, ascii "1")]

/-- The same MarketDataRequest with Symbol(55) added. -/
def c9aMsg : Msg where
  msgType := ascii "V"
  fields := [(8, ascii "FIX.4.2"), (34, ascii "1"), (35, ascii "V"),
    (49, ascii "SENDER"), (52, ascii "20250124-12:00:00"),
    (55, ascii "MSFT"), (56, ascii "TARGET"), (262, ascii "REQ1"),
    (263, ascii "1"), (264, ascii "0"), (268, ascii "1")]

/-- Claim C9 counterexample: `c9Msg` carries the full required header
(valid values) plus every static-table field for MarketDataRequest(V)
({262, 263, 264, 268}, valid values), yet `validate` rejects it, because
`validate_market_data_request` additionally demands Symbol(55). -/
theorem C9_counterexample :
    (requiredHeader.all fun t => (c9Msg.getField t).isSome) = true ∧
    ((MessageValidator.get_required_fields c9Msg.msgType).all fun t =>
      (c9Msg.getField t).isSome) = true ∧
    validate_field_values c9Msg = true ∧
    validate_sequence_numbers c9Msg = true ∧
    validate_sending_time c9Msg = true ∧
    MessageValidator.validate c9Msg = false := by
  decide

/-- Claim C9 (amended): for a message whose required header fields are
present and whose field values pass the per-field checks, `validate`
accepts iff the static-table fields for its type are present AND the
per-type conditional check passes; for MarketDataRequest(V) acceptance
additionally forces a Symbol(55) field beyond the static table. -/
theorem C9_required_fields (m : Msg)
    (hh : (requiredHeader.all fun t => (m.getField t).isSome) = true)
    (hv : validate_field_values m = true)
    (hs : validate_sequence_numbers m = true)
    (ht : validate_sending_time m = true) :
    MessageValidator.validate m =
      (((MessageValidator.get_required_fields m.msgType).all fun t =>
        (m.getField t).isSome) && validate_conditional_fields m) ∧
    (m.msgType = ascii "V" → MessageValidator.validate m = true →
      (m.getField 55).isSome = true) := by
  have hmain : MessageValidator.validate m =
      (((MessageValidator.get_required_fields m.msgType).all fun t =>
        (m.getField t).isSome) && validate_conditional_fields m) := by
    simp [MessageValidator.validate, hh, hv, hs, ht]
  refine ⟨hmain, ?_⟩
  intro hV hval
  rw [hmain] at hval
  rw [Bool.and_eq_true] at hval
  have hc : validate_conditional_fields m = true := hval.2
  have h1 : validate_conditional_fields m = validate_market_data_request m := by
    simp only [validate_conditional_fields, hV]
    rfl
  rw [h1, validate_market_data_request] at hc
  simp only [Bool.and_eq_true] at hc
  exact hc.1.1.1.2

/-- Witness for C9_required_fields at the Symbol-bearing request. -/
theorem C9_required_fields_witness :
    (MessageValidator.validate c9aMsg =
      (((MessageValidator.get_required_fields c9aMsg.msgType).all fun t =>
        (c9aMsg.getField t).isSome) &&
        validate_conditional_fields c9aMsg) ∧
    (c9aMsg.msgType = ascii "V" →
      MessageValidator.validate c9aMsg = true →
      (c9aMsg.getField 55).isSome = true)) :=
  C9_required_fields c9aMsg (by decide) (by decide) (by decide) (by decide)

/-- The serializer never emits the `|` record separator of the message
file inside the body, provided no field value contains it. -/
theorem no124_bodyOf (m : Msg) (hmt : (124 : Nat) ∉ m.msgType)
    (hv : ∀ p ∈ m.fields, (124 : Nat) ∉ p.2) :
    (124 : Nat) ∉ bodyOf m := by
  intro hmem
  simp only [bodyOf, List.append_assoc, List.mem_append] at hmem
  rcases hmem with h | h | h | h
  · exact absurd h (by decide)
  · exact hmt h
  · exact absurd h (by decide)
  · rw [List.mem_flatten] at h
    obtain ⟨l, hl, hbl⟩ := h
    rw [List.mem_map] at hl
    obtain ⟨p, hp, rfl⟩ := hl
    have hp' := hv p (List.mem_of_mem_filter hp)
    simp only [List.append_assoc, List.mem_append] at hbl
    rcases hbl with h | h | h | h
    · rcases intToBytes_bytes 124 h with h' | h' <;> omega
    · exact absurd h (by decide)
    · exact hp' h
    · exact absurd h (by decide)

/-- The full frame also avoids the `|` record separator. -/
theorem no124_frameOf (m : Msg) (hmt : (124 : Nat) ∉ m.msgType)
    (hv : ∀ p ∈ m.fields, (124 : Nat) ∉ p.2) :
    (124 : Nat) ∉ frameOf m := by
  intro hmem
  simp only [frameOf, List.append_assoc, List.mem_append] at hmem
  rcases hmem with h | h | h | h | h | h | h | h
  · exact absurd h (by decide)
  · exact absurd h (by decide)
  · exact absurd h (by decide)
  · exact absurd (padZeros_digits 124 h).2 (by decide)
  · exact absurd h (by decide)
  · exact no124_bodyOf m hmt hv h
  · exact absurd h (by decide)
  · rcases h with h' | h'
    · exact absurd (padZeros_digits 124 h').2 (by decide)
    · exact absurd h' (by decide)

/-- C8 scenario, first message: stored directly (no open transaction). -/
def c8m1 : Msg := Message.new (ascii "0") (ascii "20250124-12:00:00")

/-- C8 scenario, second message: stored inside a transaction. -/
def c8m2 : Msg := c8m1.setField 112 (ascii "TEST")

/-- C8 scenario: store seq 1 directly, then store seq 2 through a
begin/commit transaction; every I/O succeeds. -/
def c8Store : MessageStore :=
  (((((MessageStore.new.store_message 1 c8m1
    true).1.begin_transaction).1.store_message 2 c8m2
    true).1.commit_transaction true).1)

/-- Claim C8 counterexample: after the successful operations of
`c8Store`, the original store still holds (seq 1, version 1), but
reloading the persisted file yields a store with no seq-1 entry at all
(commit rewrote the file with only the transaction's lines), and the
seq-2 entry it does hold differs from the stored message (the reparsed
message carries the serializer's BodyLength(9)/CheckSum(10) fields);
`get_next_seq_num` of the reloaded store is 3. -/
theorem C8_counterexample :
    (((((MessageStore.new.store_message 1 c8m1
      true).1.begin_transaction).1.store_message 2 c8m2
      true).1.commit_transaction true).2 = .ok ()) ∧
    c8Store.get_message_with_version 1 = some (c8m1, 1) ∧
    (MessageStore.new.load_messages c8Store.file
      (ascii "TS")).get_message_with_version 1 = none ∧
    ((MessageStore.new.load_messages c8Store.file
      (ascii "TS")).get_message_with_version 2).isSome = true ∧
    (MessageStore.new.load_messages c8Store.file
      (ascii "TS")).get_message_with_version 2 ≠ some (c8m2, 2) ∧
    (MessageStore.new.load_messages c8Store.file
      (ascii "TS")).get_next_seq_num = 3 := by
  decide

/-- Claim C8 (amended): the persist → reload round-trip holds only in the
restricted single-transaction shape: for a fresh store, one begin /
store_message / commit cycle on a canonical message `m` commits
successfully, and reloading the file reproduces the (seq, version) pair —
but with `parsedOf m` (the reparse adds tags 9 and 10), not `m` itself —
and sets `get_next_seq_num` to `s + 1`. -/
theorem C8_commit_reload (m : Msg) (ts : ByteStr) (s : Int)
    (hks : KeysSorted m.fields)
    (h8 : m.getField 8 = some (ascii "FIX.4.2"))
    (h35 : m.getField 35 = some m.msgType)
    (h34 : (m.getField 34).isSome) (h49 : (m.getField 49).isSome)
    (h52 : (m.getField 52).isSome) (h56 : (m.getField 56).isSome)
    (hfields : ∀ p ∈ m.fields, 0 ≤ p.1 ∧ p.1 ≤ 2147483647 ∧
      SOH ∉ p.2 ∧ (61 : Nat) ∉ p.2 ∧ (124 : Nat) ∉ p.2)
    (hmt1 : SOH ∉ m.msgType) (hmt2 : (61 : Nat) ∉ m.msgType)
    (hmt3 : (124 : Nat) ∉ m.msgType)
    (hocc : findSub (ascii "9=0000" ++ [SOH]) (bodyOf m) = none)
    (h268 : ∀ v, m.getField 268 = some v →
      parseI32 v = some (if (m.getField 269).isSome then 1 else 0))
    (hsp : 0 < s) (hsb : s ≤ 2147483647) :
    ((((MessageStore.new.begin_transaction).1.store_message s m
      true).1.commit_transaction true).2 = .ok ()) ∧
    ((((MessageStore.new.begin_transaction).1.store_message s m
      true).1.commit_transaction true).1.get_message_with_version s =
      some (m, 1)) ∧
    ((MessageStore.new.load_messages
      ((((MessageStore.new.begin_transaction).1.store_message s m
        true).1.commit_transaction true).1.file)
      ts).get_message_with_version s = some (parsedOf m, 1)) ∧
    ((MessageStore.new.load_messages
      ((((MessageStore.new.begin_transaction).1.store_message s m
        true).1.commit_transaction true).1.file)
      ts).get_next_seq_num = s + 1) := by
  have hts : Message.toString m = .ok (frameOf m) :=
    toString_explicit m hks h8 hocc
  have hser : serializeLines 1 [(s, m)] = .ok [storeLine s 1 (frameOf m)] := by
    simp [serializeLines, hts, Except.map]
  have hpre : ((MessageStore.new.begin_transaction).1.store_message s m
      true).1 =
      { messages := [], seqNum := none,
        txn := some { messages := [(s, m)], started := true, version := 1 },
        versionCounter := 1, file := [] } := rfl
  have hcommit : (((MessageStore.new.begin_transaction).1.store_message s m
      true).1.commit_transaction true) =
      ({ messages := [(s, (m, 1))], seqNum := none, txn := none,
         versionCounter := 1, file := [storeLine s 1 (frameOf m)] },
       .ok ()) := by
    rw [hpre, MessageStore.commit_transaction.eq_def]
    dsimp only
    rw [hser]
    rfl
  have h124s : (124 : Nat) ∉ intToBytes s := by
    intro h
    rcases intToBytes_bytes 124 h with h' | h' <;> omega
  have h124fr : (124 : Nat) ∉ frameOf m :=
    no124_frameOf m hmt3 fun p hp => (hfields p hp).2.2.2.2
  have hlineShape : storeLine s 1 (frameOf m) =
      intToBytes s ++ 124 :: (natToBytes 1 ++ 124 :: frameOf m) := by
    simp [storeLine, List.append_assoc]
  have hsplitLine : splitByte 124 (storeLine s 1 (frameOf m)) =
      [intToBytes s, natToBytes 1, frameOf m] := by
    rw [hlineShape, splitByte_append_sep h124s,
      splitByte_append_sep (by decide), splitByte_sepFree h124fr]
  have hparse : MessageParser.parse ts (frameOf m) = .ok (parsedOf m) :=
    parse_frameOf m ts hks h8 h35 h34 h49 h52 h56
      (fun p hp => ⟨(hfields p hp).1, (hfields p hp).2.1,
        (hfields p hp).2.2.1, (hfields p hp).2.2.2.1⟩) hmt1 hmt2 h268
  have hload : MessageStore.new.load_messages [storeLine s 1 (frameOf m)]
      ts =
      { messages := [(s, (parsedOf m, 1))], seqNum := some (s + 1),
        txn := none, versionCounter := 1, file := [] } := by
    rw [MessageStore.load_messages.eq_def]
    dsimp only
    rw [List.foldl_cons, List.foldl_nil, hsplitLine]
    dsimp only
    rw [parseI32_intToBytes hsp.le hsb, parseU64_natToBytes (by norm_num),
      hparse]
    dsimp only
    rw [show max (0 : Int) s = s from by omega]
    rw [if_pos hsp]
    rfl
  refine ⟨?_, ?_, ?_, ?_⟩
  · rw [hcommit]
  · rw [hcommit]
    simp [MessageStore.get_message_with_version, lookupSorted]
  · rw [hcommit]
    dsimp only
    rw [hload]
    simp [MessageStore.get_message_with_version, lookupSorted]
  · rw [hcommit]
    dsimp only
    rw [hload]
    rfl

/-- Witness for C8_commit_reload at seq 5 and a concrete Heartbeat. -/
theorem C8_commit_reload_witness :
    ((((MessageStore.new.begin_transaction).1.store_message 5 c8m1
      true).1.commit_transaction true).2 = .ok ()) ∧
    ((((MessageStore.new.begin_transaction).1.store_message 5 c8m1
      true).1.commit_transaction true).1.get_message_with_version 5 =
      some (c8m1, 1)) ∧
    ((MessageStore.new.load_messages
      ((((MessageStore.new.begin_transaction).1.store_message 5 c8m1
        true).1.commit_transaction true).1.file)
      (ascii "TS")).get_message_with_version 5 =
      some (parsedOf c8m1, 1)) ∧
    ((MessageStore.new.load_messages
      ((((MessageStore.new.begin_transaction).1.store_message 5 c8m1
        true).1.commit_transaction true).1.file)
      (ascii "TS")).get_next_seq_num = 5 + 1) :=
  C8_commit_reload c8m1 (ascii "TS") 5 (by decide) (by decide) (by decide)
    (by decide) (by decide) (by decide) (by decide) (by decide) (by decide)
    (by decide) (by decide) (by decide)
    (by
      intro v hv
      rw [show c8m1.getField 268 = none from by decide] at hv
      cases hv)
    (by decide) (by decide)
